import Mathlib

/-!
Verification of the SBN graph library
(`src/evalution/parsing_smatch/sbn/sbn_smatch_fine_grained.py`).

The file is a shallow embedding of the `SBNGraph` class: `from_string`
(the linear-notation parser), `to_sbn_string` (the linear-notation
serializer), `to_penman_string` (the tree-notation serializer) and the
supporting helpers.  Python exceptions are modelled with `Except Err`;
machine integers are `Int`/`Nat` (no overflow is possible in the source,
which uses Python integers).

The modules `sbn_spec` and `graph_base` are imported by the source file
but are not part of the repository snapshot, so the fixed vocabularies
(`ROLES`, `DRS_OPERATORS`, `NEW_BOX_INDICATORS`, `INVERTIBLE_ROLES`), the
regular expressions (`SYNSET_PATTERN`, `INDEX_PATTERN`,
`NAME_CONSTANT_PATTERN`), `MIN_SYNSET_IDX`, `split_comments` and
`split_synset_id` are modelled from the specification; each such
definition carries a `Modelled from the spec:` doc comment.
-/

/-- Node kinds of the graph (source: `SBN_NODE_TYPE` in `sbn_spec`,
used throughout `sbn_smatch_fine_grained.py`). -/
inductive SBN_NODE_TYPE where
  | BOX
  | SYNSET
  | CONSTANT
deriving DecidableEq, Repr

/-- Edge kinds of the graph (source: `SBN_EDGE_TYPE` in `sbn_spec`). -/
inductive SBN_EDGE_TYPE where
  | ROLE
  | DRS_OPERATOR
  | BOX_CONNECT
  | BOX_BOX_CONNECT
  | SYN_BOX_CONNECT
deriving DecidableEq, Repr

/-- Node identity: a pair of node kind and per-kind sequence index
(source line 53: `SBN_ID = Tuple[Union[..], int]`).  The index is an
`Int` because the parser's `_active_synset_id` can be `(SYNSET, -1)`
before any synset was created (source lines 768-773). -/
abbrev NodeId := SBN_NODE_TYPE × Int

/-- Errors.  The source raises a single `SBNError` with a message; we
give each message kind its own constructor so statements can tell them
apart.  `indexError`, `keyError`, `typeError` and `valueError` model the
corresponding uncaught Python exceptions (which are *not* `SBNError`s);
`recursionError` models Python's recursion limit. -/
inductive Err where
  | emptyDocument
  | missingBoxIndex (line : String)
  | missingTarget (token line : String)
  | invalidIndex (s : String)
  | multipleBoxBox
  | ambiguousSynset
  | invalidSynsetEdgeConnect (t : SBN_EDGE_TYPE)
  | invalidSynsetNodeConnect
  | invalidNodeId
  | cannotSplitSynsetId (tok : String)
  | cyclicGraph
  | illFormedStrict
  | indexError
  | keyError
  | typeError
  | valueError
  | recursionError
deriving DecidableEq, Repr

/-! ### Character-level string utilities

All string analysis is done on `String.toList` so that every definition
reduces in the kernel. -/

/-- Whitespace characters used by Python's `str.split()` (source
line 147: `sbn_line.split()`). -/
def isWsChar (c : Char) : Bool :=
  c = ' ' || c = '\t' || c = '\n' || c = '\r'

/-- Split a character list into maximal runs of non-whitespace
characters, the model of Python's `str.split()` with no argument. -/
def splitWsChars : List Char → List (List Char)
  | [] => []
  | c :: cs =>
    if isWsChar c then splitWsChars cs
    else
      match splitWsChars cs with
      | [] => [[c]]
      | w :: ws =>
        match cs with
        | [] => [[c]]
        | c2 :: _ => if isWsChar c2 then [c] :: w :: ws else (c :: w) :: ws

/-- Python `line.split()` (source line 147). -/
def split_ws (s : String) : List String :=
  (splitWsChars s.toList).map (fun l => String.mk l)

/-- Split a character list at every occurrence of `sep`. -/
def splitOnCh (sep : Char) : List Char → List (List Char)
  | [] => [[]]
  | c :: cs =>
    if c = sep then [] :: splitOnCh sep cs
    else
      match splitOnCh sep cs with
      | [] => [[c]]
      | w :: ws => (c :: w) :: ws

/-- Whether every character in the list is an ASCII digit. -/
def allDigits (l : List Char) : Bool :=
  l.all (fun c => c.isDigit)

/-- Last character of a string, if any. -/
def lastChar (s : String) : Option Char :=
  s.toList.getLast?

/-- First character of a string, if any. -/
def headChar (s : String) : Option Char :=
  s.toList.head?

/-- Python `s.endswith('"')` (source lines 304, 760). -/
def endsDq (s : String) : Bool :=
  lastChar s = some '"'

/-- Python `s.strip()` on the space/tab/newline characters. -/
def trimStr (s : String) : String :=
  String.mk (((s.toList.dropWhile isWsChar).reverse.dropWhile isWsChar).reverse)

/-- Python `" ".join parts` (source line 309). -/
def join_space : List String → String
  | [] => ""
  | [s] => s
  | s :: rest => s ++ " " ++ join_space rest

/-- Strip a run of leading and trailing `"` characters, the model of
Python's `str.strip('"')` (source line 633). -/
def strip_dq (s : String) : String :=
  String.mk (((s.toList.dropWhile (fun c => c = '"')).reverse.dropWhile
    (fun c => c = '"')).reverse)

/-- `n` tab characters (source line 623: `tabs * "\t"`). -/
def tabs_str (n : Nat) : String :=
  String.mk (List.replicate n '\t')

/-- Strip trailing space characters, the model of Python's
`str.rstrip(" ")` (source line 536). -/
def rstrip_spaces (s : String) : String :=
  String.mk ((s.toList.reverse.dropWhile (fun c => c = ' ')).reverse)

/-- Pad a string on the right with spaces to width `n`, the model of
the format specifier `{s: <{n}}` (source line 536). -/
def pad_right (s : String) (n : Nat) : String :=
  s ++ String.mk (List.replicate (n - s.length) ' ')

/-- Python's `"<str>".replace("<", "-").replace(">", "+")`
(source lines 192, 282); both patterns are single characters, so a
character map is exact. -/
def replace_angles (s : String) : String :=
  String.mk (s.toList.map (fun c => if c = '<' then '-' else if c = '>' then '+' else c))

/-- Whether the string contains `<` or `>` (source line 229). -/
def has_angle (s : String) : Bool :=
  s.toList.any (fun c => c = '<' || c = '>')

/-- Replace every occurrence of `"Of"` by `"-of"`, the model of
Python's `edge_name.replace("Of", "-of")` (source line 684). -/
def replOfChars : List Char → List Char
  | [] => []
  | 'O' :: 'f' :: rest => '-' :: 'o' :: 'f' :: replOfChars rest
  | c :: rest => c :: replOfChars rest

/-- String version of `replOfChars`. -/
def replace_of (s : String) : String :=
  String.mk (replOfChars s.toList)

/-- Whether `p` is a leading segment of `l`. -/
def leadsWith : List Char → List Char → Bool
  | [], _ => true
  | _ :: _, [] => false
  | a :: as, b :: bs => a = b && leadsWith as bs

/-- Whether `needle` occurs inside `hay` (character lists). -/
def subSearch (needle : List Char) : List Char → Bool
  | [] => leadsWith needle []
  | c :: cs => leadsWith needle (c :: cs) || subSearch needle cs

/-- Substring test used only in theorem statements (to assert that an
output fragment occurs in a serialized string). -/
def containsSub (hay needle : String) : Bool :=
  subSearch needle.toList hay.toList

/-! ### Modelled lexical classification (from `sbn_spec`, absent from src) -/

/-- Modelled from the spec: `SBNSpec.NEW_BOX_INDICATORS`, the "fixed
closed set of discourse-relation keywords" that open a new box
(spec section 4.1); the spec and source comments name `NEGATION`,
`EXPLANATION` and `CONTINUATION` explicitly, the rest follow the same
discourse-relation convention. -/
def NEW_BOX_INDICATORS : List String :=
  ["ALTERNATION", "ATTRIBUTION", "CONDITION", "CONSEQUENCE", "CONTINUATION",
   "CONTRAST", "EXPLANATION", "NECESSITY", "NEGATION", "POSSIBILITY",
   "PRECONDITION", "RESULT", "SOURCE"]

/-- Modelled from the spec: `SBNSpec.ROLES`, the fixed closed set of
role tokens (spec sections 4.1 and 8 name `Agent`, `Theme` and the
quoted-name role); listed here are the members the claims exercise plus
representative others, including an invertible role ending in `Of`. -/
def ROLES : List String :=
  ["Agent", "Theme", "Patient", "Experiencer", "Name", "Time", "Location",
   "Quantity", "AttributeOf", "PartOf"]

/-- Modelled from the spec: `SBNSpec.DRS_OPERATORS`, the fixed closed
set of DRS-operator tokens (spec section 4.1). -/
def DRS_OPERATORS : List String :=
  ["EQU", "NEQ", "APX", "LES", "LEQ", "TPR", "TAB"]

/-- Modelled from the spec: `SBNSpec.INVERTIBLE_ROLES`, the roles
"ending in an invertible-suffix convention (`...Of`)"
(spec section 4.6); realized as the members of `ROLES` ending in `Of`. -/
def INVERTIBLE_ROLES : List String :=
  ["AttributeOf", "PartOf"]

/-- Modelled from the spec: `SBNSpec.MIN_SYNSET_IDX`; the valid
resolved-index range is `[0, max-reading-index]` (spec section 4.3),
so the minimum is 0. -/
def MIN_SYNSET_IDX : Int := 0

/-- Modelled from the spec: `SBNSpec.SYNSET_PATTERN` / `split_synset_id`,
the fixed `"lemma.partofspeech.senseid"` pattern (spec section 4.1):
the token must consist of a non-empty lemma, a part of speech in
`{n, v, a, r}` and a non-empty all-digit sense id, separated by dots
(the lemma itself may contain dots).  Returns the three groups. -/
def synset_match (s : String) : Option (String × String × String) :=
  let parts := splitOnCh '.' s.toList
  if parts.length ≥ 3 then
    let sense := parts.getLast!
    let pos := parts.dropLast.getLast!
    let lemmaParts := parts.dropLast.dropLast
    if (pos = ['n'] || pos = ['v'] || pos = ['a'] || pos = ['r'])
        && allDigits sense && decide (sense ≠ [])
        && decide (lemmaParts.map String.mk ≠ [""])
        && decide (lemmaParts ≠ []) then
      some (String.intercalate "." (lemmaParts.map String.mk),
            String.mk pos, String.mk sense)
    else none
  else none

/-- Sign characters accepted by the index pattern. -/
def isIdxSign (c : Char) : Bool :=
  c = '+' || c = '-' || c = '<' || c = '>'

/-- Modelled from the spec: `SBNSpec.INDEX_PATTERN.match`, the
"signed relative index" shape (spec sections 4.1, 4.3): a sign in
`{+, -, <, >}` followed by at least one digit.  Like Python's
`re.match`, this matches a *leading segment* of the token and returns
the matched text (`group(0)`): the sign plus the maximal digit run. -/
def index_match (s : String) : Option String :=
  match s.toList with
  | c0 :: c1 :: rest =>
    if isIdxSign c0 && c1.isDigit then
      some (String.mk (c0 :: c1 :: rest.takeWhile (fun c => c.isDigit)))
    else none
  | _ => none

/-- Modelled from the spec: `SBNSpec.NAME_CONSTANT_PATTERN.match`, the
"quoted-name pattern" (spec section 4.3): the token starts with a
double quote and has at least one further character. -/
def name_match (s : String) : Bool :=
  match s.toList with
  | '"' :: _ :: _ => true
  | _ => false

/-- Python `int(s)` on a token (source `_try_parse_idx`, lines 748-755):
an optional single sign followed by one or more digits parses to the
signed value; anything else raises (`Invalid index ... found`). -/
def parseDigits : List Char → Nat → Option Nat
  | [], acc => some acc
  | c :: cs, acc => if c.isDigit then parseDigits cs (acc * 10 + (c.toNat - 48)) else none

/-- `_try_parse_idx` (source lines 748-755). -/
def try_parse_idx (s : String) : Except Err Int :=
  match s.toList with
  | '+' :: c :: cs =>
    match parseDigits (c :: cs) 0 with
    | some n => .ok (n : Int)
    | none => .error (.invalidIndex s)
  | '-' :: c :: cs =>
    match parseDigits (c :: cs) 0 with
    | some n => .ok (-(n : Int))
    | none => .error (.invalidIndex s)
  | c :: cs =>
    match parseDigits (c :: cs) 0 with
    | some n => .ok (n : Int)
    | none => .error (.invalidIndex s)
  | [] => .error (.invalidIndex s)

/-- `SBNGraph.quote` (source lines 757-766). -/
def quote (s : String) : String :=
  if headChar s = some '"' && lastChar s = some '"' then s
  else if headChar s = some '\'' && lastChar s = some '\'' then
    "\"" ++ String.mk (s.toList.drop 1 |>.dropLast) ++ "\""
  else "\"" ++ s ++ "\""

/-! ### Graph data model -/

/-- Attribute record of a node.  Every field is optional because
`networkx.add_edges_from` silently creates endpoint nodes with an empty
attribute dict (phantom nodes); reading a missing attribute raises
`KeyError`.  Parser-created nodes always carry `type` and `token`
(source `create_node`, lines 378-398). -/
structure NodeData where
  type : Option SBN_NODE_TYPE
  token : Option String
  comment : Option String
deriving DecidableEq, Repr

/-- Attribute record of an edge (source `create_edge`, lines 355-376);
edges always carry all attributes.  The `_id` string attribute is
never read by the code under verification and is omitted. -/
structure EdgeData where
  type : SBN_EDGE_TYPE
  type_idx : Nat
  token : String
deriving DecidableEq, Repr

/-- `str(edge_id)` used as the default token of an edge created with
`token=None` (source line 373); only `BOX_CONNECT` edges use it.  The
exact rendering of the Python tuple is unobservable (those tokens are
rewritten to `"member"` before any use), so a canonical form is used. -/
def edge_id_str (t : SBN_EDGE_TYPE) (i : Nat) : String :=
  (match t with
   | .ROLE => "(ROLE, "
   | .DRS_OPERATOR => "(DRS_OPERATOR, "
   | .BOX_CONNECT => "(BOX_CONNECT, "
   | .BOX_BOX_CONNECT => "(BOX_BOX_CONNECT, "
   | .SYN_BOX_CONNECT => "(SYN_BOX_CONNECT, ") ++ toString i ++ ")"

/-- The graph: insertion-ordered node and edge lists (networkx
dictionaries preserve insertion order), the `is_dag` and
`is_possibly_ill_formed` flags and the provenance tag
(source `SBNGraph.__init__`, lines 101-112). -/
structure SBNGraphT where
  nodes : List (NodeId × NodeData)
  edges : List (NodeId × NodeId × EdgeData)
  is_dag : Bool
  is_possibly_ill_formed : Bool
  source : String
deriving DecidableEq, Repr

/-- Whether a node id is present. -/
def hasNode (g : SBNGraphT) (i : NodeId) : Bool :=
  g.nodes.any (fun p => p.1 = i)

/-- `networkx` node insertion/update: a new id is appended, an existing
id has its attribute dict updated in place (the parser's attribute
dicts always carry the same keys, so updating replaces the data). -/
def add_node (g : SBNGraphT) (p : NodeId × NodeData) : SBNGraphT :=
  if hasNode g p.1 then
    { g with nodes := g.nodes.map (fun q => if q.1 = p.1 then p else q) }
  else { g with nodes := g.nodes ++ [p] }

/-- Ensure an edge endpoint exists, creating a phantom node with an
empty attribute dict when missing (networkx `add_edges_from`). -/
def ensure_node (g : SBNGraphT) (i : NodeId) : SBNGraphT :=
  if hasNode g i then g else { g with nodes := g.nodes ++ [(i, ⟨none, none, none⟩)] }

/-- `networkx.DiGraph` edge insertion: at most one edge per ordered
pair; inserting an existing pair updates its data in place, missing
endpoints are created as phantom nodes. -/
def add_edge (g : SBNGraphT) (e : NodeId × NodeId × EdgeData) : SBNGraphT :=
  let g1 := ensure_node (ensure_node g e.1) e.2.1
  if g1.edges.any (fun q => q.1 = e.1 ∧ q.2.1 = e.2.1) then
    { g1 with edges := g1.edges.map (fun q => if q.1 = e.1 ∧ q.2.1 = e.2.1 then e else q) }
  else { g1 with edges := g1.edges ++ [e] }

/-- Out-edges of a node in insertion order (`self.out_edges(n)` /
`self.edges(n)`). -/
def out_edges (g : SBNGraphT) (i : NodeId) : List (NodeId × NodeId × EdgeData) :=
  g.edges.filter (fun e => e.1 = i)

/-- In-degree of a node (`G.in_degree()`); a `DiGraph` has at most one
edge per ordered pair, so counting list entries is exact. -/
def in_degree (g : SBNGraphT) (i : NodeId) : Nat :=
  (g.edges.filter (fun e => e.2.1 = i)).length

/-- Node attribute lookup (`self.nodes.get(i)` / `self.nodes[i]`). -/
def node_data (g : SBNGraphT) (i : NodeId) : Option NodeData :=
  (g.nodes.find? (fun p => p.1 = i)).map (fun p => p.2)

/-! ### Reachability and the acyclicity check

`nx.is_directed_acyclic_graph` is an external library call; it is
modelled by its specification: the graph is a DAG iff no directed cycle
exists.  `Reach` is the inductive reachability relation over the edge
pairs, `reachB` a verified decision procedure for it (fixpoint of the
one-step successor closure), and `has_cycle_b` decides cycle
existence. -/

/-- The ordered pairs (source, target) of the edge list. -/
def edge_pairs (g : SBNGraphT) : List (NodeId × NodeId) :=
  g.edges.map (fun e => (e.1, e.2.1))

/-- Reachability along directed edge pairs (reflexive-transitive). -/
inductive Reach (ps : List (NodeId × NodeId)) : NodeId → NodeId → Prop where
  | refl (u : NodeId) : Reach ps u u
  | head {u v w : NodeId} : (u, v) ∈ ps → Reach ps v w → Reach ps u w

/-- One-step successor closure of a node set. -/
def stepSet (ps : List (NodeId × NodeId)) (S : Finset NodeId) : Finset NodeId :=
  S ∪ (ps.filterMap (fun p => if p.1 ∈ S then some p.2 else none)).toFinset

/-- Iterated successor closure starting from `{u}`. -/
def reachSet (ps : List (NodeId × NodeId)) (u : NodeId) : Nat → Finset NodeId
  | 0 => {u}
  | k + 1 => stepSet ps (reachSet ps u k)

/-- All nodes mentioned by the pair list, together with `u`. -/
def univSet (ps : List (NodeId × NodeId)) (u : NodeId) : Finset NodeId :=
  insert u (ps.foldr (fun p acc => insert p.1 (insert p.2 acc)) ∅)

/-- Decision procedure for `Reach` (proved sound and complete below). -/
def reachB (ps : List (NodeId × NodeId)) (u v : NodeId) : Bool :=
  v ∈ reachSet ps u (univSet ps u).card

/-- Whether the edge set contains a directed cycle: some edge whose
target reaches back to its source. -/
def has_cycle_b (g : SBNGraphT) : Bool :=
  g.edges.any (fun e => reachB (edge_pairs g) e.2.1 e.1)

/-- `_check_is_dag` (source lines 744-746), with
`nx.is_directed_acyclic_graph` modelled as the absence of a directed
cycle. -/
def check_is_dag (g : SBNGraphT) : SBNGraphT × Bool :=
  let b := !has_cycle_b g
  ({ g with is_dag := b }, b)

/-- The propositional form of "the edge set contains a directed
cycle": some edge whose target reaches back to its source. -/
def has_cycle_prop (g : SBNGraphT) : Prop :=
  ∃ e ∈ g.edges, Reach (edge_pairs g) e.2.1 e.1

/-! ### The document parser (`SBNGraph.from_string`, source lines 120-353) -/

/-- Parser state: the eight per-type identity counters
(`__init_type_indices`, lines 725-735), the ill-formed flag and the
node/edge accumulators (`nodes, edges = [starting_box], []`,
line 142). -/
structure ParseState where
  syn_i : Nat
  con_i : Nat
  box_i : Nat
  role_i : Nat
  drs_i : Nat
  bc_i : Nat
  bbc_i : Nat
  sbc_i : Nat
  ill : Bool
  nodes : List (NodeId × NodeData)
  edges : List (NodeId × NodeId × EdgeData)
deriving DecidableEq, Repr

/-- `_active_synset_id` (source lines 768-773). -/
def active_synset (st : ParseState) : NodeId :=
  (.SYNSET, (st.syn_i : Int) - 1)

/-- `_active_box_id` (source lines 775-777). -/
def active_box (st : ParseState) : NodeId :=
  (.BOX, (st.box_i : Int) - 1)

/-- Current counter of an edge type. -/
def edge_count (st : ParseState) : SBN_EDGE_TYPE → Nat
  | .ROLE => st.role_i
  | .DRS_OPERATOR => st.drs_i
  | .BOX_CONNECT => st.bc_i
  | .BOX_BOX_CONNECT => st.bbc_i
  | .SYN_BOX_CONNECT => st.sbc_i

/-- Increment the counter of an edge type (`_id_for_type`,
lines 737-742). -/
def bump_edge (st : ParseState) : SBN_EDGE_TYPE → ParseState
  | .ROLE => { st with role_i := st.role_i + 1 }
  | .DRS_OPERATOR => { st with drs_i := st.drs_i + 1 }
  | .BOX_CONNECT => { st with bc_i := st.bc_i + 1 }
  | .BOX_BOX_CONNECT => { st with bbc_i := st.bbc_i + 1 }
  | .SYN_BOX_CONNECT => { st with sbc_i := st.sbc_i + 1 }

/-- First-token synset branch (source lines 156-178): create a
`SYNSET` node carrying the token and line comment, and a `BOX_CONNECT`
edge from the active box to it. -/
def synset_step (st : ParseState) (token : String) (cm : Option String) : ParseState :=
  let nid : NodeId := (.SYNSET, (st.syn_i : Int))
  let st1 := { st with
    syn_i := st.syn_i + 1,
    nodes := st.nodes ++ [(nid, (⟨some .SYNSET, some token, cm⟩ : NodeData))] }
  { st1 with
    bc_i := st1.bc_i + 1,
    edges := st1.edges ++
      [(active_box st1, nid,
        (⟨.BOX_CONNECT, st1.bc_i, edge_id_str .BOX_CONNECT st1.bc_i⟩ : EdgeData))] }

/-- New-box branch after the index token has been popped (source
lines 190-214): if the popped token matches the index pattern, parse
the full token with angles normalized (an unparsable one is fatal),
create the new `Box` node, and if the offset is non-zero add a
`BOX_BOX_CONNECT` edge from `(BOX, active + idx + 1)` clamped below at
0 to the new box, labelled with the indicator token.  A non-matching
popped token leaves the state unchanged. -/
def box_step (st : ParseState) (ind bi : String) : Except Err ParseState :=
  match index_match bi with
  | none => .ok st
  | some _ =>
    match try_parse_idx (replace_angles bi) with
    | .error e => .error e
    | .ok idx =>
      let cur : Int := (st.box_i : Int) - 1
      let nid : NodeId := (.BOX, (st.box_i : Int))
      let st1 := { st with
        box_i := st.box_i + 1,
        nodes := st.nodes ++ [(nid, ⟨some .BOX, some ("B-" ++ toString st.box_i), none⟩)] }
      if idx = 0 then .ok st1
      else
        let le0 := cur + idx + 1
        let le := if le0 ≤ 0 then 0 else le0
        .ok { st1 with
          bbc_i := st1.bbc_i + 1,
          edges := st1.edges ++ [((.BOX, le), nid, ⟨.BOX_BOX_CONNECT, st1.bbc_i, ind⟩)] }

/-- Role/operator branch, index-shaped target, `ROLE`/`DRS_OPERATOR`
edge type (source lines 238-279): resolve against the active synset;
in `[MIN_SYNSET_IDX, max_wn_idx]` an edge to the resolved synset is
created, otherwise the target becomes a `Constant` node, the
ill-formed flag is set and the edge of the same kind points at it. -/
def role_idx_step (st : ParseState) (token target : String) (cm : Option String)
    (et : SBN_EDGE_TYPE) (idx max_wn_idx : Int) : ParseState :=
  let a : Int := (st.syn_i : Int) - 1
  let tgt := a + idx
  if MIN_SYNSET_IDX ≤ tgt ∧ tgt ≤ max_wn_idx then
    let st1 := bump_edge st et
    { st1 with edges := st1.edges ++
        [(((.SYNSET, a) : NodeId), ((.SYNSET, tgt) : NodeId),
          (⟨et, edge_count st et, token⟩ : EdgeData))] }
  else
    let st1 := { st with
      ill := true,
      con_i := st.con_i + 1,
      nodes := st.nodes ++
        [(((.CONSTANT, (st.con_i : Int)) : NodeId),
          (⟨some .CONSTANT, some target, cm⟩ : NodeData))] }
    let st2 := bump_edge st1 et
    { st2 with edges := st2.edges ++
        [(((.SYNSET, a) : NodeId), ((.CONSTANT, (st.con_i : Int)) : NodeId),
          (⟨et, edge_count st1 et, token⟩ : EdgeData))] }

/-- Role branch with `<`/`>` in the target (source lines 281-294): a
`SYN_BOX_CONNECT` edge from the active synset to the box at
`active box index + idx`, with no range check or clamping. -/
def syn_box_step (st : ParseState) (token : String) (idx : Int) : ParseState :=
  let st1 := bump_edge st .SYN_BOX_CONNECT
  { st1 with edges := st1.edges ++
      [(active_synset st, (.BOX, ((st.box_i : Int) - 1) + idx),
        ⟨.SYN_BOX_CONNECT, st.sbc_i, token⟩)] }

/-- Quoted-name branch (source lines 299-324): the joined name becomes
one `Constant` node, connected from the active synset by a `ROLE` edge
labelled with the role/operator token. -/
def name_step (st : ParseState) (token name : String) (cm : Option String) : ParseState :=
  let st1 := { st with
    con_i := st.con_i + 1,
    nodes := st.nodes ++
      [(((.CONSTANT, (st.con_i : Int)) : NodeId),
        (⟨some .CONSTANT, some name, cm⟩ : NodeData))] }
  { st1 with
    role_i := st1.role_i + 1,
    edges := st1.edges ++
      [(active_synset st1, ((.CONSTANT, (st.con_i : Int)) : NodeId),
        (⟨.ROLE, st1.role_i, token⟩ : EdgeData))] }

/-- Default constant branch (source lines 325-339): the raw target
text becomes a `Constant` node with a `ROLE` edge (a `ROLE` edge even
when the head token was a DRS operator, mirroring line 333). -/
def const_step (st : ParseState) (token target : String) (cm : Option String) : ParseState :=
  name_step st token target cm

/-- The name-reconstruction loop (source lines 300-307):
`while not target.endswith('"'): target = tokens.pop(0)`.  Returns how
many extra tokens the loop consumes (the loop's appends are then
`toks.take k` and the remaining queue `toks.drop k`); popping from an
empty list is Python's `IndexError`. -/
def name_scan (t : String) (toks : List String) : Except Err Nat :=
  if endsDq t then .ok 0
  else
    match toks with
    | [] => .error .indexError
    | x :: rest =>
      match name_scan x rest with
      | .ok k => .ok (k + 1)
      | .error e => .error e

/-- The per-line token loop of `from_string` (source lines 149-345),
defined by structural recursion on a fuel argument so that it reduces
in the kernel; the wrapper `run_tokens` supplies `tokens.length` as
fuel, which is always sufficient because every iteration consumes at
least one token (so the `recursionError` case is unreachable).
`m` is `max_wn_idx = len(lines) - 1` (line 144), `cm` the line's
comment, `line` the raw line text (used in error messages), `c` the
`tok_count` (incremented once per loop iteration).  The branch order
mirrors the source: first-token synset, new-box indicator,
role/operator, silent skip. -/
def run_tokens_f (m : Int) (cm : Option String) (line : String) :
    Nat → ParseState → List String → Nat → Except Err ParseState
  | 0, st, [], _ => .ok st
  | 0, _, _ :: _, _ => .error .recursionError
  | _ + 1, st, [], _ => .ok st
  | fuel + 1, st, token :: rest, c =>
    if c = 0 ∧ (synset_match token).isSome then
      run_tokens_f m cm line fuel (synset_step st token cm) rest (c + 1)
    else if token ∈ NEW_BOX_INDICATORS then
      match rest with
      | [] => .error (.missingBoxIndex line)
      | bi :: rest' =>
        match box_step st token bi with
        | .error e => .error e
        | .ok st' => run_tokens_f m cm line fuel st' rest' (c + 1)
    else if token ∈ ROLES ∨ token ∈ DRS_OPERATORS then
      match rest with
      | [] => .error (.missingTarget token line)
      | target :: rest' =>
        let et : SBN_EDGE_TYPE :=
          if token ∈ ROLES then
            if has_angle target then .SYN_BOX_CONNECT else .ROLE
          else .DRS_OPERATOR
        match index_match target with
        | some grp =>
          if et = .ROLE ∨ et = .DRS_OPERATOR then
            match try_parse_idx grp with
            | .error e => .error e
            | .ok idx =>
              run_tokens_f m cm line fuel (role_idx_step st token target cm et idx m) rest' (c + 1)
          else
            match try_parse_idx (replace_angles target) with
            | .error e => .error e
            | .ok idx =>
              run_tokens_f m cm line fuel (syn_box_step st token idx) rest' (c + 1)
        | none =>
          if name_match target then
            match name_scan target rest' with
            | .error e => .error e
            | .ok k =>
              run_tokens_f m cm line fuel
                (name_step st token (join_space (target :: rest'.take k)) cm)
                (rest'.drop k) (c + 1)
          else
            run_tokens_f m cm line fuel (const_step st token target cm) rest' (c + 1)
    else
      run_tokens_f m cm line fuel st rest (c + 1)

/-- The token loop as the source runs it: fuel is the token count. -/
def run_tokens (m : Int) (cm : Option String) (line : String)
    (st : ParseState) (toks : List String) (c : Nat) : Except Err ParseState :=
  run_tokens_f m cm line toks.length st toks c

/-- The line loop of `from_string` (source lines 146-345): run the
token loop on each line's whitespace tokens with `tok_count = 0`. -/
def run_lines (m : Int) : ParseState → List (String × Option String) → Except Err ParseState
  | st, [] => .ok st
  | st, (line, cm) :: rest =>
    match run_tokens m cm line st (split_ws line) 0 with
    | .error e => .error e
    | .ok st' => run_lines m st' rest

/-- Modelled from the spec: `split_comments` from `sbn_spec`
(spec section 6): the document is a sequence of non-blank,
non-comment lines; a trailing fragment after the `%` marker is
detached as the line's comment, and lines that are entirely comment or
blank are dropped. -/
def split_comment_line (line : String) : Option (String × Option String) :=
  match splitOnCh '%' line.toList with
  | [] => none
  | text :: restParts =>
    let sbn := trimStr (String.mk text)
    if sbn = "" then none
    else if restParts = [] then some (sbn, none)
    else some (sbn, some (trimStr (String.intercalate "%" (restParts.map String.mk))))

/-- Modelled from the spec: `split_comments` applied to the whole
document: split on newlines and keep the non-empty readings. -/
def split_comments (input : String) : List (String × Option String) :=
  (splitOnCh '\n' input.toList).filterMap (fun l => split_comment_line (String.mk l))

/-- The parser state after creating the seed box (source
lines 136-142): all counters zero except the box counter, the node
accumulator holding the starting box `B-0`. -/
def init_state : ParseState :=
  { syn_i := 0, con_i := 0, box_i := 1, role_i := 0, drs_i := 0,
    bc_i := 0, bbc_i := 0, sbc_i := 0, ill := false,
    nodes := [(((.BOX, 0) : NodeId), (⟨some .BOX, some "B-0", none⟩ : NodeData))],
    edges := [] }

/-- The empty graph a fresh `SBNGraph()` starts with (source
lines 101-112). -/
def empty_graph : SBNGraphT :=
  { nodes := [], edges := [], is_dag := false,
    is_possibly_ill_formed := false, source := "UNKNOWN" }

/-- Final graph assembly (source lines 347-353):
`add_nodes_from(nodes)`, `add_edges_from(edges)` and the
`_check_is_dag` call. -/
def build_graph (st : ParseState) : SBNGraphT :=
  let g0 := { empty_graph with is_possibly_ill_formed := st.ill }
  let g1 := st.nodes.foldl add_node g0
  let g2 := st.edges.foldl add_edge g1
  (check_is_dag g2).1

/-- `from_string` on the already-split line list. -/
def from_lines (lines : List (String × Option String)) : Except Err SBNGraphT :=
  match lines with
  | [] => .error .emptyDocument
  | _ =>
    let m : Int := (lines.length : Int) - 1
    match run_lines m init_state lines with
    | .error e => .error e
    | .ok st => .ok (build_graph st)

/-- `SBNGraph.from_string` (source lines 120-353) with
`is_single_line = False`: split the document into commented readings,
fail on an empty document, run the parser and assemble the graph. -/
def from_string (input : String) : Except Err SBNGraphT :=
  from_lines (split_comments input)

/-! ### The linear-notation serializer (`to_sbn_string`, source
lines 406-540) -/

/-- A token of an intermediate output line: either a node id waiting
to be resolved in the second pass, or literal text (the source mixes
ids and strings in `temp_line_result`). -/
inductive LineTok where
  | nid (i : NodeId)
  | strT (s : String)
deriving DecidableEq, Repr

/-- Modelled from the spec: the comment marker written before an
attached comment on output (spec section 6). -/
def COMMENT_MARK : String := "% "

/-- Modelled from the spec: the marker of a full comment line
(spec section 6). -/
def COMMENT_LINE_MARK : String := "%%%"

/-- Body of one reading line: the role/operator edges of a synset (or
constant) in insertion order (source lines 442-467).  An edge that is
not `ROLE`/`DRS_OPERATOR` is fatal; a `SYNSET` target is emitted as an
unresolved id, a `CONSTANT` target as its literal token, a `BOX`
target is fatal. -/
def syn_line_toks (g : SBNGraphT) : List (NodeId × NodeId × EdgeData) → Except Err (List LineTok)
  | [] => .ok []
  | (_, w, d) :: rest =>
    if d.type ≠ .ROLE ∧ d.type ≠ .DRS_OPERATOR then
      .error (.invalidSynsetEdgeConnect d.type)
    else
      match node_data g w with
      | none => .error .typeError
      | some nd =>
        match nd.type with
        | none => .error .keyError
        | some .SYNSET =>
          match syn_line_toks g rest with
          | .error e => .error e
          | .ok l => .ok (.strT d.token :: .nid w :: l)
        | some .CONSTANT =>
          match nd.token with
          | none => .error .keyError
          | some tk =>
            match syn_line_toks g rest with
            | .error e => .error e
            | .ok l => .ok (.strT d.token :: .strT tk :: l)
        | some .BOX => .error .invalidSynsetNodeConnect

/-- First-pass accumulator of `to_sbn_string`: the ordered reading
lines, the id-to-line-index map and the next line index. -/
structure SbnAcc where
  result : List (List LineTok)
  idx_map : List (NodeId × Nat)
  li : Nat
deriving Repr

/-- First pass over the out-edges of one box (source lines 416-474):
record the single `BOX_BOX_CONNECT` token (a second one is fatal), and
emit one reading line per synset/constant target (a repeated target is
fatal). -/
def box_edges_pass (g : SBNGraphT) :
    List (NodeId × NodeId × EdgeData) → Option String → SbnAcc →
    Except Err (Option String × SbnAcc)
  | [], ins, acc => .ok (ins, acc)
  | (_u, v, d) :: rest, ins, acc =>
    let step2 : Option String → Except Err (Option String × SbnAcc) := fun ins' =>
      match v.1 with
      | .SYNSET | .CONSTANT =>
        if (acc.idx_map.any (fun p => p.1 = v)) then .error .ambiguousSynset
        else
          match syn_line_toks g (out_edges g v) with
          | .error e => .error e
          | .ok body =>
            box_edges_pass g rest ins'
              { result := acc.result ++ [.nid v :: body],
                idx_map := acc.idx_map ++ [(v, acc.li)],
                li := acc.li + 1 }
      | .BOX => box_edges_pass g rest ins' acc
    if d.type = .BOX_BOX_CONNECT then
      match ins with
      | some _ => .error .multipleBoxBox
      | none => step2 (some d.token)
    else step2 ins

/-- First pass over all boxes in node insertion order (source
lines 412-477); after each box's edges, a recorded box-box token adds
the extra `[token, "-1"]` line. -/
def boxes_pass (g : SBNGraphT) : List NodeId → SbnAcc → Except Err SbnAcc
  | [], acc => .ok acc
  | b :: rest, acc =>
    match box_edges_pass g (out_edges g b) none acc with
    | .error e => .error e
    | .ok (ins, acc') =>
      match ins with
      | some tok =>
        boxes_pass g rest { acc' with result := acc'.result ++ [[.strT tok, .strT "-1"]] }
      | none => boxes_pass g rest acc'

/-- Second pass over the trailing tokens of a line (source
lines 511-521): a mapped id becomes the signed relative index
`line(target) - current_syn_idx + 1` (non-negative rendered with a
leading `+`), literal text passes through, an unmapped id is Python's
`TypeError` at the final `join`. -/
def render_rest (idx_map : List (NodeId × Nat)) (cur : Nat) :
    List LineTok → Except Err (List String)
  | [] => .ok []
  | .strT s :: rest =>
    match render_rest idx_map cur rest with
    | .error e => .error e
    | .ok l => .ok (s :: l)
  | .nid i :: rest =>
    match idx_map.find? (fun p => p.1 = i) with
    | some p =>
      let target : Int := (p.2 : Int) - (cur : Int) + 1
      match render_rest idx_map cur rest with
      | .error e => .error e
      | .ok l => .ok ((if 0 ≤ target then "+" ++ toString target else toString target) :: l)
    | none => .error .typeError

/-- Second pass over one line (source lines 490-521): the first token
is either the head synset id (resolved to its token, incrementing
`current_syn_idx`, and supplying the line comment) or literal text;
the rest are rendered by `render_rest`. -/
def render_line (g : SBNGraphT) (idx_map : List (NodeId × Nat)) (cur : Nat) :
    List LineTok → Except Err (List String × Nat × Option String)
  | [] => .ok ([], cur, none)
  | .nid i :: rest =>
    match idx_map.find? (fun p => p.1 = i) with
    | some _ =>
      match node_data g i with
      | none => .error .typeError
      | some nd =>
        match nd.token with
        | none => .error .keyError
        | some tk =>
          match render_rest idx_map (cur + 1) rest with
          | .error e => .error e
          | .ok l => .ok (tk :: l, cur + 1, nd.comment)
    | none => .error .typeError
  | .strT s :: rest =>
    match render_rest idx_map cur rest with
    | .error e => .error e
    | .ok l => .ok (s :: l, cur, none)

/-- Second pass over all lines (source lines 489-531), producing the
`(first-column, rest)` pairs. -/
def render_lines (g : SBNGraphT) (idx_map : List (NodeId × Nat)) (add_comments : Bool) :
    Nat → List (List LineTok) → Except Err (List (String × String))
  | _, [] => .ok []
  | cur, line :: rest =>
    match render_line g idx_map cur line with
    | .error e => .error e
    | .ok (toks, cur', cm) =>
      let toks := if add_comments then
          match cm with
          | some c => toks ++ [COMMENT_MARK ++ c]
          | none => toks
        else toks
      let pair : String × String :=
        match toks with
        | [] => ("", " ")
        | [t] => (t, " ")
        | t :: ts => (t, join_space ts)
      match render_lines g idx_map add_comments cur' rest with
      | .error e => .error e
      | .ok l => .ok (pair :: l)

/-- `to_sbn_string` (source lines 406-540).  The final alignment pads
every first column to the maximal first-column width plus one and
strips trailing spaces; Python's `max()` on an empty sequence is
`ValueError`. -/
def to_sbn_string (g : SBNGraphT) (add_comments : Bool) : Except Err String :=
  let box_nodes := (g.nodes.filter (fun p => p.1.1 = SBN_NODE_TYPE.BOX)).map (fun p => p.1)
  match boxes_pass g box_nodes { result := [], idx_map := [], li := 0 } with
  | .error e => .error e
  | .ok acc =>
    match render_lines g acc.idx_map add_comments 0 acc.result with
    | .error e => .error e
    | .ok rendered =>
      let rendered :=
        if add_comments then
          (COMMENT_LINE_MARK ++ " SBN source: " ++ g.source, " ") :: rendered
        else rendered
      match rendered with
      | [] => .error .valueError
      | _ =>
        let max_syn_len := (rendered.map (fun p => p.1.length)).foldl max 0 + 1
        .ok (String.intercalate "\n"
          (rendered.map (fun p => rstrip_spaces (pad_right p.1 max_syn_len ++ p.2))))

/-! ### The tree-notation serializer (`to_penman_string`, source
lines 554-723) -/

/-- Node record of the serializer's private working copy: resolved
type, (possibly rewritten) token and the assigned variable name
(source lines 594-609). -/
structure PNodeData where
  type : SBN_NODE_TYPE
  token : Option String
  var : String
deriving DecidableEq, Repr

/-- The annotated working copy (`G = deepcopy(self)` plus the var and
token rewrites, source lines 590-614). -/
structure PGraph where
  nodes : List (NodeId × PNodeData)
  edges : List (NodeId × NodeId × EdgeData)
deriving DecidableEq, Repr

/-- Variable-name assignment pass (source lines 594-609): each node in
insertion order receives `b`/`c`/`s` plus a per-kind counter, a node
without a `type` attribute is Python's `KeyError`, and every `Box`
node's token is rewritten to `"box"`. -/
def annotate_nodes : List (NodeId × NodeData) → Nat → Nat → Nat →
    Except Err (List (NodeId × PNodeData))
  | [], _, _, _ => .ok []
  | (i, d) :: rest, b, c, s =>
    match d.type with
    | none => .error .keyError
    | some t =>
      let entry : NodeId × PNodeData :=
        match t with
        | .BOX => (i, ⟨t, some "box", "b" ++ toString b⟩)
        | .CONSTANT => (i, ⟨t, d.token, "c" ++ toString c⟩)
        | .SYNSET => (i, ⟨t, d.token, "s" ++ toString s⟩)
      let next :=
        match t with
        | .BOX => annotate_nodes rest (b + 1) c s
        | .CONSTANT => annotate_nodes rest b (c + 1) s
        | .SYNSET => annotate_nodes rest b c (s + 1)
      match next with
      | .error e => .error e
      | .ok l => .ok (entry :: l)

/-- Edge-token rewrite (source lines 611-614): every `BOX_CONNECT`
edge's token becomes `"member"`. -/
def annotate_edges (edges : List (NodeId × NodeId × EdgeData)) :
    List (NodeId × NodeId × EdgeData) :=
  edges.map (fun e =>
    if e.2.2.type = .BOX_CONNECT then (e.1, e.2.1, { e.2.2 with token := "member" }) else e)

/-- The annotated working copy (source lines 590-614). -/
def annotate (g : SBNGraphT) : Except Err PGraph :=
  match annotate_nodes g.nodes 0 0 0 with
  | .error e => .error e
  | .ok ns => .ok ⟨ns, annotate_edges g.edges⟩

/-- Node lookup in the working copy (`S.nodes[current_n]`). -/
def pnode_data (S : PGraph) (i : NodeId) : Option PNodeData :=
  (S.nodes.find? (fun p => p.1 = i)).map (fun p => p.2)

/-- Out-edges in the working copy (`S.edges(current_n)`). -/
def p_out_edges (S : PGraph) (i : NodeId) : List (NodeId × NodeId × EdgeData) :=
  S.edges.filter (fun e => e.1 = i)

/-- In-degree in the working copy (`G.in_degree()`). -/
def p_in_degree (S : PGraph) (i : NodeId) : Nat :=
  (S.edges.filter (fun e => e.2.1 = i)).length

/-- Edge pairs of the working copy. -/
def p_edge_pairs (S : PGraph) : List (NodeId × NodeId) :=
  S.edges.map (fun e => (e.1, e.2.1))

/-- The head text emitted when a node is first visited (source
lines 626-653): in strict mode a synset prints
`(var / "lemma.pos.sense"`, a non-constant prints
`(var / quoted-token` and a constant prints only its quoted token; in
permissive mode a synset prints the `:lemma`/`:pos` expansion and
*every* other node, constants included, prints
`(var / quoted-token`. -/
def head_str (strict : Bool) (d : PNodeData) (tok : String) (indents : String) :
    Except Err String :=
  if strict then
    if d.type = .SYNSET then
      match synset_match tok with
      | none => .error (.cannotSplitSynsetId tok)
      | some (l, p, sn) =>
        let wordnet := strip_dq (quote l) ++ "." ++ strip_dq (quote p) ++ "."
          ++ strip_dq (quote sn)
        .ok ("(" ++ d.var ++ " / " ++ quote wordnet)
    else if headChar d.var ≠ some 'c' then
      .ok ("(" ++ d.var ++ " / " ++ quote tok)
    else
      .ok (quote tok)
  else
    if d.type = .SYNSET then
      match synset_match tok with
      | none => .error (.cannotSplitSynsetId tok)
      | some (l, p, _sn) =>
        .ok ("(" ++ d.var ++ " / " ++ quote "synset"
          ++ "\n" ++ indents ++ ":lemma " ++ quote l
          ++ "\n" ++ indents ++ ":pos " ++ quote p)
    else .ok ("(" ++ d.var ++ " / " ++ quote tok)

/-- The child loop of `__to_penman_str` (source lines 674-690),
parametrized by the visit function applied to each target: emit
`\n<indents>:<edge name> ` (with the `...Of` to `...-of` rewrite for
invertible roles) and recurse into the target at depth `tabs + 1`. -/
def penman_children_go (S : PGraph)
    (visit : NodeId → List String → String → Nat → Except Err (String × List String)) :
    List (NodeId × NodeId × EdgeData) → String → String → List String → Nat →
    Except Err (String × List String)
  | [], _, out, vis, _ => .ok (out, vis)
  | (_, w, d) :: rest, indents, out, vis, tabs =>
    let edge_name := if d.token ∈ INVERTIBLE_ROLES then replace_of d.token else d.token
    let out' := out ++ "\n" ++ indents ++ ":" ++ edge_name ++ " "
    match visit w vis out' (tabs + 1) with
    | .error e => .error e
    | .ok (out2, vis2) => penman_children_go S visit rest indents out2 vis2 tabs

/-- `__to_penman_str` (source lines 616-700): an already-visited
variable prints only its name; otherwise the head text is emitted, the
out-edges are recursed into with incremented depth, and the node is
closed with `)` and marked visited — except constants, which are
marked visited without a closing parenthesis.  The fuel argument
models Python's recursion limit (structural recursion on it lets the
kernel evaluate the serializer); it is never exhausted on graphs that
pass the acyclicity check with the fuel `to_penman_string` supplies. -/
def penman_visit (S : PGraph) (strict : Bool) :
    Nat → NodeId → List String → String → Nat → Except Err (String × List String)
  | 0, _, _, _, _ => .error .recursionError
  | fuel + 1, n, visited, out, tabs =>
    match pnode_data S n with
    | none => .error .keyError
    | some d =>
      if d.var ∈ visited then .ok (out ++ d.var, visited)
      else
        let indents := tabs_str tabs
        match d.token with
        | none => .error .keyError
        | some tok =>
          match head_str strict d tok indents with
          | .error e => .error e
          | .ok hd =>
            match penman_children_go S
                (fun w vis o t => penman_visit S strict fuel w vis o t)
                (p_out_edges S n) indents (out ++ hd) visited tabs with
            | .error e => .error e
            | .ok (out2, vis2) =>
              if headChar d.var = some 'c' then .ok (out2, vis2 ++ [d.var])
              else .ok (out2 ++ ")", vis2 ++ [d.var])

/-- `to_penman_string` returning both the final string and the final
visited set (the visited set is internal state of the source, exposed
here so that statements about omitted nodes are expressible); the
cyclicity and strictness preconditions come first (source
lines 579-588), then the working copy is annotated, and emission
starts at the first in-degree-zero node in insertion order (source
line 703) — an empty candidate list is Python's `IndexError`. -/
def to_penman_string_v (g : SBNGraphT) (_evaluate_sense strict : Bool) :
    Except Err (String × List String) :=
  if has_cycle_b g then .error .cyclicGraph
  else if strict && g.is_possibly_ill_formed then .error .illFormedStrict
  else
    match annotate g with
    | .error e => .error e
    | .ok S =>
      match (S.nodes.filter (fun p => p_in_degree S p.1 = 0)).head? with
      | none => .error .indexError
      | some p0 => penman_visit S strict (S.nodes.length + 1) p0.1 [] "" 1

/-- `to_penman_string` (source lines 554-723). -/
def to_penman_string (g : SBNGraphT) (evaluate_sense strict : Bool) : Except Err String :=
  (to_penman_string_v g evaluate_sense strict).map (fun p => p.1)

/-! ### Concrete instances used by witnesses and counterexamples -/

/-- The parser state reached after the reading `person.n.01` (used by
the C3 witness). -/
def c3_state : ParseState :=
  { syn_i := 1, con_i := 0, box_i := 1, role_i := 0, drs_i := 0,
    bc_i := 1, bbc_i := 0, sbc_i := 0, ill := false,
    nodes := [(((.BOX, 0) : NodeId), (⟨some .BOX, some "B-0", none⟩ : NodeData)),
              (((.SYNSET, 0) : NodeId), (⟨some .SYNSET, some "person.n.01", none⟩ : NodeData))],
    edges := [(((.BOX, 0) : NodeId), ((.SYNSET, 0) : NodeId),
               (⟨.BOX_CONNECT, 0, edge_id_str .BOX_CONNECT 0⟩ : EdgeData))] }

/-- The parser state reached after the reading `time.n.08` and the
head token `person.n.01` of the second line of the document
`time.n.08 / person.n.01 Agent -1 Theme +1 / cookie.n.01` (used by the
C4 witness). -/
def c4_state : ParseState :=
  { syn_i := 2, con_i := 0, box_i := 1, role_i := 0, drs_i := 0,
    bc_i := 2, bbc_i := 0, sbc_i := 0, ill := false,
    nodes := [(((.BOX, 0) : NodeId), (⟨some .BOX, some "B-0", none⟩ : NodeData)),
              (((.SYNSET, 0) : NodeId), (⟨some .SYNSET, some "time.n.08", none⟩ : NodeData)),
              (((.SYNSET, 1) : NodeId), (⟨some .SYNSET, some "person.n.01", none⟩ : NodeData))],
    edges := [(((.BOX, 0) : NodeId), ((.SYNSET, 0) : NodeId),
               (⟨.BOX_CONNECT, 0, edge_id_str .BOX_CONNECT 0⟩ : EdgeData)),
              (((.BOX, 0) : NodeId), ((.SYNSET, 1) : NodeId),
               (⟨.BOX_CONNECT, 1, edge_id_str .BOX_CONNECT 1⟩ : EdgeData))] }

/-- `c4_state` after processing `Agent -1`: one `ROLE` edge from the
active synset 1 back to synset 0, nothing else changed. -/
def c4_state_in : ParseState :=
  { c4_state with
      role_i := 1,
      edges := c4_state.edges ++
        [(((.SYNSET, 1) : NodeId), ((.SYNSET, 0) : NodeId), (⟨.ROLE, 0, "Agent"⟩ : EdgeData))] }

/-- The parser state after processing `NEGATION -1` from the initial
state (used by the C5 witness): a new box `B-1` and a
`BOX_BOX_CONNECT` edge from box 0 (the clamped source) to it. -/
def c5_state : ParseState :=
  { init_state with
      box_i := 2, bbc_i := 1,
      nodes := init_state.nodes ++
        [(((.BOX, 1) : NodeId), (⟨some .BOX, some "B-1", none⟩ : NodeData))],
      edges := init_state.edges ++
        [(((.BOX, 0) : NodeId), ((.BOX, 1) : NodeId),
          (⟨.BOX_BOX_CONNECT, 0, "NEGATION"⟩ : EdgeData))] }

/-- The parser state after processing `Name "New York"` (supplied as
the three tokens `Name`, `"New`, `York"`) from `c3_state` (used by the
C6 witness): one constant `"New York"` and one `ROLE` edge from the
active synset. -/
def c6_state : ParseState :=
  { c3_state with
      con_i := 1, role_i := 1,
      nodes := c3_state.nodes ++
        [(((.CONSTANT, 0) : NodeId), (⟨some .CONSTANT, some "\"New York\"", none⟩ : NodeData))],
      edges := c3_state.edges ++
        [(((.SYNSET, 0) : NodeId), ((.CONSTANT, 0) : NodeId),
          (⟨.ROLE, 0, "Name"⟩ : EdgeData))] }

/-- A two-synset cyclic graph (used by the C2 witness). -/
def c2_graph : SBNGraphT :=
  { nodes := [(((.SYNSET, 0) : NodeId), (⟨some .SYNSET, some "man.n.01", none⟩ : NodeData)),
              (((.SYNSET, 1) : NodeId), (⟨some .SYNSET, some "person.n.01", none⟩ : NodeData))],
    edges := [(((.SYNSET, 0) : NodeId), ((.SYNSET, 1) : NodeId), (⟨.ROLE, 0, "Agent"⟩ : EdgeData)),
              (((.SYNSET, 1) : NodeId), ((.SYNSET, 0) : NodeId), (⟨.ROLE, 1, "Theme"⟩ : EdgeData))],
    is_dag := false, is_possibly_ill_formed := false, source := "UNKNOWN" }

/-- A box with one constant child (used by the C7 counterexample). -/
def c7_graph : SBNGraphT :=
  { nodes := [(((.BOX, 0) : NodeId), (⟨some .BOX, some "B-0", none⟩ : NodeData)),
              (((.CONSTANT, 0) : NodeId), (⟨some .CONSTANT, some "x", none⟩ : NodeData))],
    edges := [(((.BOX, 0) : NodeId), ((.CONSTANT, 0) : NodeId),
               (⟨.ROLE, 0, "Agent"⟩ : EdgeData))],
    is_dag := true, is_possibly_ill_formed := false, source := "UNKNOWN" }

/-- A one-constant annotated working copy (used by the witness of the
amended C7 statement). -/
def c7_pgraph : PGraph :=
  { nodes := [(((.CONSTANT, 0) : NodeId),
               (⟨.CONSTANT, some "x", "c0"⟩ : PNodeData))],
    edges := [] }

/-- A graph with two in-degree-zero nodes and a directed cycle (used
by the C10 counterexample). -/
def c10_graph : SBNGraphT :=
  { nodes := [(((.BOX, 0) : NodeId), (⟨some .BOX, some "B-0", none⟩ : NodeData)),
              (((.BOX, 1) : NodeId), (⟨some .BOX, some "B-1", none⟩ : NodeData)),
              (((.SYNSET, 0) : NodeId), (⟨some .SYNSET, some "man.n.01", none⟩ : NodeData)),
              (((.SYNSET, 1) : NodeId), (⟨some .SYNSET, some "person.n.01", none⟩ : NodeData))],
    edges := [(((.SYNSET, 0) : NodeId), ((.SYNSET, 1) : NodeId), (⟨.ROLE, 0, "Agent"⟩ : EdgeData)),
              (((.SYNSET, 1) : NodeId), ((.SYNSET, 0) : NodeId), (⟨.ROLE, 1, "Theme"⟩ : EdgeData))],
    is_dag := false, is_possibly_ill_formed := false, source := "UNKNOWN" }

/-- Two boxes, no edges: two in-degree-zero nodes (used by the C10
witness). -/
def c10w_graph : SBNGraphT :=
  { nodes := [(((.BOX, 0) : NodeId), (⟨some .BOX, some "B-0", none⟩ : NodeData)),
              (((.BOX, 1) : NodeId), (⟨some .BOX, some "B-1", none⟩ : NodeData))],
    edges := [], is_dag := true, is_possibly_ill_formed := false, source := "UNKNOWN" }

/-- The annotated working copy of `c10w_graph`. -/
def c10w_pgraph : PGraph :=
  { nodes := [(((.BOX, 0) : NodeId), (⟨.BOX, some "box", "b0"⟩ : PNodeData)),
              (((.BOX, 1) : NodeId), (⟨.BOX, some "box", "b1"⟩ : PNodeData))],
    edges := [] }

/-! ## Theorems

First the supporting lemmas shared between claims, then one theorem
per claim (with witnesses and counterexamples where required). -/

/-- No new-box indicator matches the synset pattern. -/
theorem vocab_indicators_not_synset : ∀ x ∈ NEW_BOX_INDICATORS, synset_match x = none := by
  decide

/-- Roles are disjoint from indicators and never synset-shaped. -/
theorem vocab_roles : ∀ x ∈ ROLES, x ∉ NEW_BOX_INDICATORS ∧ synset_match x = none := by
  decide

/-- DRS operators are disjoint from indicators and never
synset-shaped. -/
theorem vocab_drs : ∀ x ∈ DRS_OPERATORS, x ∉ NEW_BOX_INDICATORS ∧ synset_match x = none := by
  decide

/-- A quoted-name token never matches the index pattern (its first
character is `"`). -/
theorem name_match_not_index (t : String) (h : name_match t = true) :
    index_match t = none := by
  unfold name_match at h
  unfold index_match
  split at h
  · rename_i c rest heq
    rw [heq]
    simp [isIdxSign]
  · simp at h

/-- A successful scan over a token list scans the same count over any
extension of the list. -/
theorem name_scan_append (t : String) (xs : List String) (k : Nat)
    (h : name_scan t xs = .ok k) (ys : List String) :
    name_scan t (xs ++ ys) = .ok k := by
  induction xs generalizing t k with
  | nil =>
    unfold name_scan at h ⊢
    by_cases he : endsDq t
    · simp [he] at h ⊢
      exact h
    · simp [he] at h
  | cons x rest ih =>
    unfold name_scan at h ⊢
    by_cases he : endsDq t
    · simp [he] at h ⊢
      exact h
    · simp only [he, Bool.false_eq_true, if_false, List.cons_append] at h ⊢
      match hr : name_scan x rest with
      | .ok k2 =>
        rw [hr] at h
        simp at h
        rw [ih x k2 hr]
        simp [h]
      | .error e => rw [hr] at h; simp at h

/-- The scan consumes exactly up to and including the first token that
ends with a closing double quote. -/
theorem name_scan_spec (t : String) (a : List String) (tend : String) (b : List String)
    (ht : endsDq t = false) (ha : ∀ x ∈ a, endsDq x = false) (he : endsDq tend = true) :
    name_scan t (a ++ tend :: b) = .ok (a.length + 1) := by
  induction a generalizing t with
  | nil =>
    unfold name_scan
    simp [ht]
    unfold name_scan
    simp [he]
  | cons x rest ih =>
    have hx : endsDq x = false := ha x (by simp)
    have hrec := ih x hx (fun y hy => ha y (List.mem_cons_of_mem _ hy))
    unfold name_scan
    simp only [ht, Bool.false_eq_true, if_false, List.cons_append]
    rw [hrec]
    simp [List.length_cons]

/-- When no token ends with a closing double quote the scan exhausts
the queue and pops from the empty list: Python's `IndexError`. -/
theorem name_scan_fail (t : String) (xs : List String)
    (ht : endsDq t = false) (hxs : ∀ x ∈ xs, endsDq x = false) :
    name_scan t xs = .error .indexError := by
  induction xs generalizing t with
  | nil => unfold name_scan; simp [ht]
  | cons x rest ih =>
    have hx : endsDq x = false := hxs x (by simp)
    have hrec := ih x hx (fun y hy => hxs y (List.mem_cons_of_mem _ hy))
    unfold name_scan
    simp only [ht, Bool.false_eq_true, if_false]
    rw [hrec]

/-- A successful scan consumes at most the whole queue. -/
theorem name_scan_le (t : String) (toks : List String) (k : Nat)
    (h : name_scan t toks = .ok k) : k ≤ toks.length := by
  induction toks generalizing t k with
  | nil =>
    unfold name_scan at h
    by_cases he : endsDq t
    · simp [he] at h
      omega
    · simp [he] at h
  | cons x rest ih =>
    unfold name_scan at h
    by_cases he : endsDq t
    · simp [he] at h
      omega
    · simp only [he, Bool.false_eq_true, if_false] at h
      match hr : name_scan x rest with
      | .ok k2 =>
        rw [hr] at h
        simp at h
        have := ih x k2 hr
        simp [← h]
        omega
      | .error e => rw [hr] at h; simp at h

/-- The result of the token loop does not depend on the fuel, as long
as the fuel covers the token count (each iteration consumes at least
one token). -/
theorem run_tokens_f_irrel (m : Int) (cm : Option String) (line : String) :
    ∀ (fuel : Nat) (st : ParseState) (toks : List String) (c : Nat),
      toks.length ≤ fuel → ∀ f2, toks.length ≤ f2 →
      run_tokens_f m cm line fuel st toks c = run_tokens_f m cm line f2 st toks c := by
  intro fuel st toks c
  induction fuel, st, toks, c using run_tokens_f.induct m cm line with
  | case1 st c =>
    intro _ f2 _
    cases f2 <;> rfl
  | case2 st token tl c =>
    intro hlen _ _
    simp at hlen
  | case3 fuel st c =>
    intro _ f2 _
    cases f2 <;> rfl
  | case4 fuel st token tl c hsyn ih =>
    intro hlen f2 hlen2
    simp only [List.length_cons] at hlen hlen2
    cases f2 with
    | zero => omega
    | succ f2 =>
      unfold run_tokens_f
      rw [if_pos hsyn, if_pos hsyn]
      exact ih (by omega) f2 (by omega)
  | case5 fuel st token c hsyn hind =>
    intro _ f2 hlen2
    simp only [List.length_cons] at hlen2
    cases f2 with
    | zero => omega
    | succ f2 =>
      unfold run_tokens_f
      rw [if_neg hsyn, if_neg hsyn, if_pos hind, if_pos hind]
  | case6 fuel st token c hsyn hind bi tl e hbox =>
    intro _ f2 hlen2
    simp only [List.length_cons] at hlen2
    cases f2 with
    | zero => omega
    | succ f2 =>
      unfold run_tokens_f
      rw [if_neg hsyn, if_neg hsyn, if_pos hind, if_pos hind]
      simp only [hbox]
  | case7 fuel st token c hsyn hind bi tl st1 hbox ih =>
    intro hlen f2 hlen2
    simp only [List.length_cons] at hlen hlen2
    cases f2 with
    | zero => omega
    | succ f2 =>
      unfold run_tokens_f
      rw [if_neg hsyn, if_neg hsyn, if_pos hind, if_pos hind]
      simp only [hbox]
      exact ih (by omega) f2 (by omega)
  | case8 fuel st token c hsyn hind hrole =>
    intro _ f2 hlen2
    simp only [List.length_cons] at hlen2
    cases f2 with
    | zero => omega
    | succ f2 =>
      unfold run_tokens_f
      rw [if_neg hsyn, if_neg hsyn, if_neg hind, if_neg hind, if_pos hrole, if_pos hrole]
  | case9 fuel st token c hsyn hind hrole target tl et grp hgrp het e hparse =>
    intro _ f2 hlen2
    simp only [List.length_cons] at hlen2
    cases f2 with
    | zero => omega
    | succ f2 =>
      have het2 :
          (if token ∈ ROLES then
            (if has_angle target = true then SBN_EDGE_TYPE.SYN_BOX_CONNECT else SBN_EDGE_TYPE.ROLE)
          else SBN_EDGE_TYPE.DRS_OPERATOR) = SBN_EDGE_TYPE.ROLE ∨
          (if token ∈ ROLES then
            (if has_angle target = true then SBN_EDGE_TYPE.SYN_BOX_CONNECT else SBN_EDGE_TYPE.ROLE)
          else SBN_EDGE_TYPE.DRS_OPERATOR) = SBN_EDGE_TYPE.DRS_OPERATOR := het
      unfold run_tokens_f
      rw [if_neg hsyn, if_neg hsyn, if_neg hind, if_neg hind, if_pos hrole, if_pos hrole]
      simp only [hgrp]
      rw [if_pos het2, if_pos het2, hparse]
  | case10 fuel st token c hsyn hind hrole target tl et grp hgrp het idx hparse ih =>
    intro hlen f2 hlen2
    simp only [List.length_cons] at hlen hlen2
    cases f2 with
    | zero => omega
    | succ f2 =>
      have het2 :
          (if token ∈ ROLES then
            (if has_angle target = true then SBN_EDGE_TYPE.SYN_BOX_CONNECT else SBN_EDGE_TYPE.ROLE)
          else SBN_EDGE_TYPE.DRS_OPERATOR) = SBN_EDGE_TYPE.ROLE ∨
          (if token ∈ ROLES then
            (if has_angle target = true then SBN_EDGE_TYPE.SYN_BOX_CONNECT else SBN_EDGE_TYPE.ROLE)
          else SBN_EDGE_TYPE.DRS_OPERATOR) = SBN_EDGE_TYPE.DRS_OPERATOR := het
      unfold run_tokens_f
      rw [if_neg hsyn, if_neg hsyn, if_neg hind, if_neg hind, if_pos hrole, if_pos hrole]
      simp only [hgrp]
      rw [if_pos het2, if_pos het2, hparse]
      exact ih (by omega) f2 (by omega)
  | case11 fuel st token c hsyn hind hrole target tl et grp hgrp het e hparse =>
    intro _ f2 hlen2
    simp only [List.length_cons] at hlen2
    cases f2 with
    | zero => omega
    | succ f2 =>
      have het2 :
          ¬((if token ∈ ROLES then
            (if has_angle target = true then SBN_EDGE_TYPE.SYN_BOX_CONNECT else SBN_EDGE_TYPE.ROLE)
          else SBN_EDGE_TYPE.DRS_OPERATOR) = SBN_EDGE_TYPE.ROLE ∨
          (if token ∈ ROLES then
            (if has_angle target = true then SBN_EDGE_TYPE.SYN_BOX_CONNECT else SBN_EDGE_TYPE.ROLE)
          else SBN_EDGE_TYPE.DRS_OPERATOR) = SBN_EDGE_TYPE.DRS_OPERATOR) := het
      unfold run_tokens_f
      rw [if_neg hsyn, if_neg hsyn, if_neg hind, if_neg hind, if_pos hrole, if_pos hrole]
      simp only [hgrp]
      rw [if_neg het2, if_neg het2, hparse]
  | case12 fuel st token c hsyn hind hrole target tl et grp hgrp het idx hparse ih =>
    intro hlen f2 hlen2
    simp only [List.length_cons] at hlen hlen2
    cases f2 with
    | zero => omega
    | succ f2 =>
      have het2 :
          ¬((if token ∈ ROLES then
            (if has_angle target = true then SBN_EDGE_TYPE.SYN_BOX_CONNECT else SBN_EDGE_TYPE.ROLE)
          else SBN_EDGE_TYPE.DRS_OPERATOR) = SBN_EDGE_TYPE.ROLE ∨
          (if token ∈ ROLES then
            (if has_angle target = true then SBN_EDGE_TYPE.SYN_BOX_CONNECT else SBN_EDGE_TYPE.ROLE)
          else SBN_EDGE_TYPE.DRS_OPERATOR) = SBN_EDGE_TYPE.DRS_OPERATOR) := het
      unfold run_tokens_f
      rw [if_neg hsyn, if_neg hsyn, if_neg hind, if_neg hind, if_pos hrole, if_pos hrole]
      simp only [hgrp]
      rw [if_neg het2, if_neg het2, hparse]
      exact ih (by omega) f2 (by omega)
  | case13 fuel st token c hsyn hind hrole target tl hgrp hname e hscan =>
    intro _ f2 hlen2
    simp only [List.length_cons] at hlen2
    cases f2 with
    | zero => omega
    | succ f2 =>
      unfold run_tokens_f
      rw [if_neg hsyn, if_neg hsyn, if_neg hind, if_neg hind, if_pos hrole, if_pos hrole]
      simp only [hgrp]
      rw [if_pos hname, if_pos hname, hscan]
  | case14 fuel st token c hsyn hind hrole target tl hgrp hname k hscan ih =>
    intro hlen f2 hlen2
    simp only [List.length_cons] at hlen hlen2
    cases f2 with
    | zero => omega
    | succ f2 =>
      unfold run_tokens_f
      rw [if_neg hsyn, if_neg hsyn, if_neg hind, if_neg hind, if_pos hrole, if_pos hrole]
      simp only [hgrp]
      rw [if_pos hname, if_pos hname, hscan]
      have hdl : (tl.drop k).length ≤ tl.length := by
        simp [List.length_drop]
      exact ih (by omega) f2 (by omega)
  | case15 fuel st token c hsyn hind hrole target tl hgrp hname ih =>
    intro hlen f2 hlen2
    simp only [List.length_cons] at hlen hlen2
    cases f2 with
    | zero => omega
    | succ f2 =>
      unfold run_tokens_f
      rw [if_neg hsyn, if_neg hsyn, if_neg hind, if_neg hind, if_pos hrole, if_pos hrole]
      simp only [hgrp]
      rw [if_neg hname, if_neg hname]
      exact ih (by omega) f2 (by omega)
  | case16 fuel st token tl c hsyn hind hrole ih =>
    intro hlen f2 hlen2
    simp only [List.length_cons] at hlen hlen2
    cases f2 with
    | zero => omega
    | succ f2 =>
      unfold run_tokens_f
      rw [if_neg hsyn, if_neg hsyn, if_neg hind, if_neg hind, if_neg hrole, if_neg hrole]
      exact ih (by omega) f2 (by omega)

/-- A token prefix whose processing succeeds consumes exactly itself:
running the loop on `pre ++ rest` first performs the steps of `pre`
and then continues on `rest` from the reached state (at some token
count `c'`). -/
theorem run_tokens_f_append (m : Int) (cm : Option String) (line : String) :
    ∀ (fuel : Nat) (st : ParseState) (pre : List String) (c : Nat),
      pre.length ≤ fuel →
      ∀ st', run_tokens_f m cm line fuel st pre c = .ok st' →
      ∀ rest, ∃ c', run_tokens m cm line st (pre ++ rest) c =
        run_tokens m cm line st' rest c' := by
  intro fuel st pre c
  induction fuel, st, pre, c using run_tokens_f.induct m cm line with
  | case1 st c =>
    intro _ st' h rest
    unfold run_tokens_f at h
    simp at h
    exact ⟨c, by simp [h]⟩
  | case2 st token tl c =>
    intro hlen
    simp at hlen
  | case3 fuel st c =>
    intro _ st' h rest
    unfold run_tokens_f at h
    simp at h
    exact ⟨c, by simp [h]⟩
  | case4 fuel st token tl c hsyn ih =>
    intro hlen st' h rest
    simp only [List.length_cons] at hlen
    unfold run_tokens_f at h
    rw [if_pos hsyn] at h
    obtain ⟨c', hc'⟩ := ih (by omega) st' h rest
    refine ⟨c', ?_⟩
    rw [← hc']
    show run_tokens_f m cm line ((token :: tl) ++ rest).length st ((token :: tl) ++ rest) c = _
    simp only [List.cons_append, List.length_cons]
    unfold run_tokens_f
    rw [if_pos hsyn]
    rfl
  | case5 fuel st token c hsyn hind =>
    intro _ st' h rest
    unfold run_tokens_f at h
    rw [if_neg hsyn, if_pos hind] at h
    simp at h
  | case6 fuel st token c hsyn hind bi tl e hbox =>
    intro _ st' h rest
    unfold run_tokens_f at h
    rw [if_neg hsyn, if_pos hind] at h
    simp only [hbox] at h
    simp at h
  | case7 fuel st token c hsyn hind bi tl st1 hbox ih =>
    intro hlen st' h rest
    simp only [List.length_cons] at hlen
    unfold run_tokens_f at h
    rw [if_neg hsyn, if_pos hind] at h
    simp only [hbox] at h
    obtain ⟨c', hc'⟩ := ih (by omega) st' h rest
    refine ⟨c', ?_⟩
    rw [← hc']
    show run_tokens_f m cm line ((token :: bi :: tl) ++ rest).length st ((token :: bi :: tl) ++ rest) c = _
    simp only [List.cons_append, List.length_cons]
    unfold run_tokens_f
    rw [if_neg hsyn, if_pos hind]
    simp only [hbox]
    exact run_tokens_f_irrel m cm line _ _ _ _
      (by simp [List.length_append]) _ (by simp [List.length_append])
  | case8 fuel st token c hsyn hind hrole =>
    intro _ st' h rest
    unfold run_tokens_f at h
    rw [if_neg hsyn, if_neg hind, if_pos hrole] at h
    simp at h
  | case9 fuel st token c hsyn hind hrole target tl et grp hgrp het e hparse =>
    intro _ st' h rest
    have het2 :
        (if token ∈ ROLES then
          (if has_angle target = true then SBN_EDGE_TYPE.SYN_BOX_CONNECT else SBN_EDGE_TYPE.ROLE)
        else SBN_EDGE_TYPE.DRS_OPERATOR) = SBN_EDGE_TYPE.ROLE ∨
        (if token ∈ ROLES then
          (if has_angle target = true then SBN_EDGE_TYPE.SYN_BOX_CONNECT else SBN_EDGE_TYPE.ROLE)
        else SBN_EDGE_TYPE.DRS_OPERATOR) = SBN_EDGE_TYPE.DRS_OPERATOR := het
    unfold run_tokens_f at h
    rw [if_neg hsyn, if_neg hind, if_pos hrole] at h
    simp only [hgrp] at h
    rw [if_pos het2, hparse] at h
    simp at h
  | case10 fuel st token c hsyn hind hrole target tl et grp hgrp het idx hparse ih =>
    intro hlen st' h rest
    simp only [List.length_cons] at hlen
    have het2 :
        (if token ∈ ROLES then
          (if has_angle target = true then SBN_EDGE_TYPE.SYN_BOX_CONNECT else SBN_EDGE_TYPE.ROLE)
        else SBN_EDGE_TYPE.DRS_OPERATOR) = SBN_EDGE_TYPE.ROLE ∨
        (if token ∈ ROLES then
          (if has_angle target = true then SBN_EDGE_TYPE.SYN_BOX_CONNECT else SBN_EDGE_TYPE.ROLE)
        else SBN_EDGE_TYPE.DRS_OPERATOR) = SBN_EDGE_TYPE.DRS_OPERATOR := het
    unfold run_tokens_f at h
    rw [if_neg hsyn, if_neg hind, if_pos hrole] at h
    simp only [hgrp] at h
    rw [if_pos het2, hparse] at h
    obtain ⟨c', hc'⟩ := ih (by omega) st' h rest
    refine ⟨c', ?_⟩
    rw [← hc']
    show run_tokens_f m cm line ((token :: target :: tl) ++ rest).length st
      ((token :: target :: tl) ++ rest) c = _
    simp only [List.cons_append, List.length_cons]
    unfold run_tokens_f
    rw [if_neg hsyn, if_neg hind, if_pos hrole]
    simp only [hgrp]
    rw [if_pos het2, hparse]
    exact run_tokens_f_irrel m cm line _ _ _ _
      (by simp [List.length_append]) _ (by simp [List.length_append])
  | case11 fuel st token c hsyn hind hrole target tl et grp hgrp het e hparse =>
    intro _ st' h rest
    have het2 :
        ¬((if token ∈ ROLES then
          (if has_angle target = true then SBN_EDGE_TYPE.SYN_BOX_CONNECT else SBN_EDGE_TYPE.ROLE)
        else SBN_EDGE_TYPE.DRS_OPERATOR) = SBN_EDGE_TYPE.ROLE ∨
        (if token ∈ ROLES then
          (if has_angle target = true then SBN_EDGE_TYPE.SYN_BOX_CONNECT else SBN_EDGE_TYPE.ROLE)
        else SBN_EDGE_TYPE.DRS_OPERATOR) = SBN_EDGE_TYPE.DRS_OPERATOR) := het
    unfold run_tokens_f at h
    rw [if_neg hsyn, if_neg hind, if_pos hrole] at h
    simp only [hgrp] at h
    rw [if_neg het2, hparse] at h
    simp at h
  | case12 fuel st token c hsyn hind hrole target tl et grp hgrp het idx hparse ih =>
    intro hlen st' h rest
    simp only [List.length_cons] at hlen
    have het2 :
        ¬((if token ∈ ROLES then
          (if has_angle target = true then SBN_EDGE_TYPE.SYN_BOX_CONNECT else SBN_EDGE_TYPE.ROLE)
        else SBN_EDGE_TYPE.DRS_OPERATOR) = SBN_EDGE_TYPE.ROLE ∨
        (if token ∈ ROLES then
          (if has_angle target = true then SBN_EDGE_TYPE.SYN_BOX_CONNECT else SBN_EDGE_TYPE.ROLE)
        else SBN_EDGE_TYPE.DRS_OPERATOR) = SBN_EDGE_TYPE.DRS_OPERATOR) := het
    unfold run_tokens_f at h
    rw [if_neg hsyn, if_neg hind, if_pos hrole] at h
    simp only [hgrp] at h
    rw [if_neg het2, hparse] at h
    obtain ⟨c', hc'⟩ := ih (by omega) st' h rest
    refine ⟨c', ?_⟩
    rw [← hc']
    show run_tokens_f m cm line ((token :: target :: tl) ++ rest).length st
      ((token :: target :: tl) ++ rest) c = _
    simp only [List.cons_append, List.length_cons]
    unfold run_tokens_f
    rw [if_neg hsyn, if_neg hind, if_pos hrole]
    simp only [hgrp]
    rw [if_neg het2, hparse]
    exact run_tokens_f_irrel m cm line _ _ _ _
      (by simp [List.length_append]) _ (by simp [List.length_append])
  | case13 fuel st token c hsyn hind hrole target tl hgrp hname e hscan =>
    intro _ st' h rest
    unfold run_tokens_f at h
    rw [if_neg hsyn, if_neg hind, if_pos hrole] at h
    simp only [hgrp] at h
    rw [if_pos hname, hscan] at h
    simp at h
  | case14 fuel st token c hsyn hind hrole target tl hgrp hname k hscan ih =>
    intro hlen st' h rest
    simp only [List.length_cons] at hlen
    unfold run_tokens_f at h
    rw [if_neg hsyn, if_neg hind, if_pos hrole] at h
    simp only [hgrp] at h
    rw [if_pos hname, hscan] at h
    obtain ⟨c', hc'⟩ := ih (by simp [List.length_drop]; omega) st' h rest
    refine ⟨c', ?_⟩
    rw [← hc']
    show run_tokens_f m cm line ((token :: target :: tl) ++ rest).length st
      ((token :: target :: tl) ++ rest) c = _
    simp only [List.cons_append, List.length_cons]
    unfold run_tokens_f
    rw [if_neg hsyn, if_neg hind, if_pos hrole]
    simp only [hgrp]
    rw [if_pos hname, name_scan_append target tl k hscan rest]
    simp only []
    have hk := name_scan_le target tl k hscan
    rw [List.take_append_of_le_length hk, List.drop_append_of_le_length hk]
    exact run_tokens_f_irrel m cm line _ _ _ _
      (by simp [List.length_append, List.length_drop]; omega) _
      (by simp [List.length_append, List.length_drop])
  | case15 fuel st token c hsyn hind hrole target tl hgrp hname ih =>
    intro hlen st' h rest
    simp only [List.length_cons] at hlen
    unfold run_tokens_f at h
    rw [if_neg hsyn, if_neg hind, if_pos hrole] at h
    simp only [hgrp] at h
    rw [if_neg hname] at h
    obtain ⟨c', hc'⟩ := ih (by omega) st' h rest
    refine ⟨c', ?_⟩
    rw [← hc']
    show run_tokens_f m cm line ((token :: target :: tl) ++ rest).length st
      ((token :: target :: tl) ++ rest) c = _
    simp only [List.cons_append, List.length_cons]
    unfold run_tokens_f
    rw [if_neg hsyn, if_neg hind, if_pos hrole]
    simp only [hgrp]
    rw [if_neg hname]
    exact run_tokens_f_irrel m cm line _ _ _ _
      (by simp [List.length_append]) _ (by simp [List.length_append])
  | case16 fuel st token tl c hsyn hind hrole ih =>
    intro hlen st' h rest
    simp only [List.length_cons] at hlen
    unfold run_tokens_f at h
    rw [if_neg hsyn, if_neg hind, if_neg hrole] at h
    obtain ⟨c', hc'⟩ := ih (by omega) st' h rest
    refine ⟨c', ?_⟩
    rw [← hc']
    show run_tokens_f m cm line ((token :: tl) ++ rest).length st ((token :: tl) ++ rest) c = _
    simp only [List.cons_append, List.length_cons]
    unfold run_tokens_f
    rw [if_neg hsyn, if_neg hind, if_neg hrole]
    rfl

/-- `run_tokens_f_append` at the wrapper level. -/
theorem run_tokens_append (m : Int) (cm : Option String) (line : String)
    (st : ParseState) (pre : List String) (c : Nat) (st' : ParseState)
    (h : run_tokens m cm line st pre c = .ok st') (rest : List String) :
    ∃ c', run_tokens m cm line st (pre ++ rest) c =
      run_tokens m cm line st' rest c' :=
  run_tokens_f_append m cm line pre.length st pre c (Nat.le_refl _) st' h rest

/-- The line loop splits over list append, propagating errors. -/
theorem run_lines_append (m : Int) (xs ys : List (String × Option String)) :
    ∀ st, run_lines m st (xs ++ ys) =
      match run_lines m st xs with
      | .ok st' => run_lines m st' ys
      | .error e => .error e := by
  induction xs with
  | nil =>
    intro st
    simp [run_lines]
  | cons x rest ih =>
    intro st
    match x with
    | (line, cm) =>
      have hcons : ∀ (s : ParseState) (ls : List (String × Option String)),
          run_lines m s ((line, cm) :: ls) =
            match run_tokens m cm line s (split_ws line) 0 with
            | .error e => .error e
            | .ok st1 => run_lines m st1 ls := fun s ls => rfl
      rw [List.cons_append, hcons, hcons]
      match h : run_tokens m cm line st (split_ws line) 0 with
      | .ok st1 => simp [ih st1]
      | .error e => simp

/-- A non-empty line list runs the parser (the empty-document branch
of `from_lines` is not taken). -/
theorem from_lines_ne_nil (lines : List (String × Option String)) (h : lines ≠ []) :
    from_lines lines =
      match run_lines ((lines.length : Int) - 1) init_state lines with
      | .error e => .error e
      | .ok st => .ok (build_graph st) := by
  match lines with
  | [] => exact absurd rfl h
  | x :: rest => rfl

/-- Processing a single indicator token with nothing after it on the
line fails with the missing-box-index error (source lines 183-186). -/
theorem run_tokens_indicator_last (m : Int) (cm : Option String) (line : String)
    (st : ParseState) (ind : String) (c : Nat) (hind : ind ∈ NEW_BOX_INDICATORS) :
    run_tokens m cm line st [ind] c = .error (.missingBoxIndex line) := by
  have hns := vocab_indicators_not_synset ind hind
  show run_tokens_f m cm line 1 st [ind] c = _
  unfold run_tokens_f
  simp [hind, hns]

/-- Claim C3: for every document containing a new-box indicator token
that is missing its required index — a scope-change token standing
last on its line, reached by an error-free run over the earlier lines
(`h1`) and the earlier tokens of its own line (`h2`) — `from_string`
raises the missing-scope-index error, regardless of any valid content
on later lines (`L2` is universally quantified and unconstrained). -/
theorem C3_missing_scope_index
    (input : String) (L1 L2 : List (String × Option String))
    (bad : String) (cm : Option String) (pre : List String) (ind : String)
    (st st' : ParseState)
    (hsplit : split_comments input = L1 ++ (bad, cm) :: L2)
    (htoks : split_ws bad = pre ++ [ind])
    (hind : ind ∈ NEW_BOX_INDICATORS)
    (h1 : run_lines (((split_comments input).length : Int) - 1) init_state L1 = .ok st)
    (h2 : run_tokens (((split_comments input).length : Int) - 1) cm bad st pre 0 = .ok st') :
    from_string input = .error (.missingBoxIndex bad) := by
  unfold from_string
  set m : Int := ((split_comments input).length : Int) - 1 with hm
  have hne : split_comments input ≠ [] := by
    rw [hsplit]
    simp
  rw [from_lines_ne_nil _ hne, ← hm]
  obtain ⟨c', hc'⟩ := run_tokens_append m cm bad st pre 0 st' h2 [ind]
  rw [← htoks] at hc'
  have hlast := run_tokens_indicator_last m cm bad st' ind c' hind
  rw [hlast] at hc'
  have hcons : ∀ (s : ParseState) (ls : List (String × Option String)),
      run_lines m s ((bad, cm) :: ls) =
        match run_tokens m cm bad s (split_ws bad) 0 with
        | .error e => .error e
        | .ok st1 => run_lines m st1 ls := fun s ls => rfl
  rw [hsplit, run_lines_append, h1]
  simp only []
  rw [hcons, hc']

/-- Witness for C3: the document `person.n.01 / NEGATION / man.n.01`,
whose second line is an indicator with no index, fails with the
missing-scope-index error even though the third line is valid. -/
theorem C3_missing_scope_index_witness :
    from_string "person.n.01\nNEGATION\nman.n.01" = .error (.missingBoxIndex "NEGATION") :=
  C3_missing_scope_index "person.n.01\nNEGATION\nman.n.01"
    [("person.n.01", none)] [("man.n.01", none)] "NEGATION" none [] "NEGATION"
    c3_state c3_state (by decide) (by decide) (by decide) (by rfl) (by rfl)

/-- Claim C1 (code bug): round-trip stability fails on the document
`person.n.01 Agent >1`.  `from_string` parses it successfully into a
graph containing a `SYN_BOX_CONNECT` edge (the synset-to-box edge type
deliberately added to the parser and supported by `to_penman_string`),
but `to_sbn_string` raises `SBNError` ("Invalid synset edge connect
found", source lines 446-453) on every graph containing such an edge,
so the serialize step of `parse → serialize → parse` fails and no
round trip is possible. -/
theorem C1_roundtrip_serialization_fails :
    (from_string "person.n.01 Agent >1").map
        (fun g => g.edges.any (fun e => e.2.2.type = .SYN_BOX_CONNECT)) = .ok true ∧
    (from_string "person.n.01 Agent >1").bind (fun g => to_sbn_string g false) =
      .error (.invalidSynsetEdgeConnect .SYN_BOX_CONNECT) := by
  constructor
  · rfl
  · rfl

/-- Claim C8: a new-box indicator whose following token does not match
the index pattern consumes that token silently: the parser state is
completely unchanged (no box node, no `BOX_BOX_CONNECT` edge, no
counter bump, no flag), no error is raised, and the loop continues
with the remaining tokens at the next token count. -/
theorem C8_nonindex_follower_skipped (m : Int) (cm : Option String) (line : String)
    (st : ParseState) (ind t : String) (rest : List String) (c : Nat)
    (hind : ind ∈ NEW_BOX_INDICATORS) (ht : index_match t = none) :
    run_tokens m cm line st (ind :: t :: rest) c =
      run_tokens m cm line st rest (c + 1) := by
  have hns := vocab_indicators_not_synset ind hind
  show run_tokens_f m cm line (rest.length + 1 + 1) st (ind :: t :: rest) c = _
  unfold run_tokens_f
  have hsyn : ¬(c = 0 ∧ (synset_match ind).isSome = true) := by
    simp [hns]
  rw [if_neg hsyn, if_pos hind]
  simp only []
  unfold box_step
  rw [ht]
  exact run_tokens_f_irrel m cm line _ _ _ _ (by omega) _ (by omega)

/-- Witness for C8: in the initial state, `CONTINUATION man.n.01`
consumes `man.n.01` without any effect and continues (here with no
tokens left, so both sides succeed with the untouched initial
state). -/
theorem C8_nonindex_follower_skipped_witness :
    run_tokens 0 none "CONTINUATION man.n.01" init_state ["CONTINUATION", "man.n.01"] 0 =
      run_tokens 0 none "CONTINUATION man.n.01" init_state [] 1 :=
  C8_nonindex_follower_skipped 0 none "CONTINUATION man.n.01" init_state
    "CONTINUATION" "man.n.01" [] 0 (by decide) (by decide)

/-- One loop iteration for a role/operator token with an angle-free
index-shaped target steps through `role_idx_step`. -/
theorem run_tokens_role_idx (m : Int) (cm : Option String) (line : String)
    (st : ParseState) (r target grp : String) (rest : List String) (c : Nat) (idx : Int)
    (hr : r ∈ ROLES ∨ r ∈ DRS_OPERATORS)
    (hgrp : index_match target = some grp)
    (hparse : try_parse_idx grp = .ok idx)
    (hang : has_angle target = false) :
    run_tokens m cm line st (r :: target :: rest) c =
      run_tokens m cm line
        (role_idx_step st r target cm (if r ∈ ROLES then .ROLE else .DRS_OPERATOR) idx m)
        rest (c + 1) := by
  have hv : r ∉ NEW_BOX_INDICATORS ∧ synset_match r = none := by
    cases hr with
    | inl h => exact vocab_roles r h
    | inr h => exact vocab_drs r h
  have hsyn : ¬(c = 0 ∧ (synset_match r).isSome = true) := by simp [hv.2]
  show run_tokens_f m cm line (rest.length + 1 + 1) st (r :: target :: rest) c = _
  unfold run_tokens_f
  rw [if_neg hsyn, if_neg hv.1, if_pos hr]
  simp only [hgrp, hang, Bool.false_eq_true, if_false]
  by_cases hR : r ∈ ROLES
  · simp only [hR, if_true, true_or]
    rw [hparse]
    exact run_tokens_f_irrel m cm line _ _ _ _ (by omega) _ (by omega)
  · simp only [hR, Bool.false_eq_true, if_false, or_true, if_true]
    rw [hparse]
    exact run_tokens_f_irrel m cm line _ _ _ _ (by omega) _ (by omega)

/-- `bump_edge` changes only an edge counter. -/
theorem bump_edge_ill (st : ParseState) (et : SBN_EDGE_TYPE) :
    (bump_edge st et).ill = st.ill := by
  cases et <;> rfl

/-- Claim C4: for a role or DRS-operator token whose target parses as
a signed relative index (no angle brackets), with resolved position
`a + idx` for the active synset index `a`: inside
`[MIN_SYNSET_IDX, max_wn_idx]` the parser appends exactly one edge of
the matching kind from the active synset to the synset at the resolved
index and leaves the ill-formed flag unchanged; outside that range it
appends a `Constant` node holding the target text, connects the active
synset to it with an edge of the same kind, and sets the ill-formed
flag to true. -/
theorem C4_role_index_resolution (m : Int) (cm : Option String) (line : String)
    (st : ParseState) (r target grp : String) (rest : List String) (c : Nat) (idx : Int)
    (hr : r ∈ ROLES ∨ r ∈ DRS_OPERATORS)
    (hgrp : index_match target = some grp)
    (hparse : try_parse_idx grp = .ok idx)
    (hang : has_angle target = false) :
    let et : SBN_EDGE_TYPE := if r ∈ ROLES then .ROLE else .DRS_OPERATOR
    let a : Int := (st.syn_i : Int) - 1
    let stIn : ParseState := bump_edge
      ({ st with edges := st.edges ++
        [(((.SYNSET, a) : NodeId), ((.SYNSET, a + idx) : NodeId),
          (⟨et, edge_count st et, r⟩ : EdgeData))] }) et
    let stOut : ParseState := bump_edge
      ({ st with
          ill := true, con_i := st.con_i + 1,
          nodes := st.nodes ++ [(((.CONSTANT, (st.con_i : Int)) : NodeId),
            (⟨some .CONSTANT, some target, cm⟩ : NodeData))],
          edges := st.edges ++ [(((.SYNSET, a) : NodeId), ((.CONSTANT, (st.con_i : Int)) : NodeId),
            (⟨et, edge_count st et, r⟩ : EdgeData))] }) et
    (MIN_SYNSET_IDX ≤ a + idx ∧ a + idx ≤ m →
      run_tokens m cm line st (r :: target :: rest) c = run_tokens m cm line stIn rest (c + 1) ∧
      stIn.ill = st.ill) ∧
    (¬(MIN_SYNSET_IDX ≤ a + idx ∧ a + idx ≤ m) →
      run_tokens m cm line st (r :: target :: rest) c = run_tokens m cm line stOut rest (c + 1) ∧
      stOut.ill = true) := by
  intro et a stIn stOut
  rw [run_tokens_role_idx m cm line st r target grp rest c idx hr hgrp hparse hang]
  constructor
  · intro hin
    have hstep : role_idx_step st r target cm et idx m = stIn := by
      unfold_let et stIn
      unfold role_idx_step
      rw [if_pos hin]
      by_cases hR : r ∈ ROLES <;>
        simp only [hR, if_true, Bool.false_eq_true, if_false, bump_edge, edge_count]
    refine ⟨by rw [hstep], (bump_edge_ill _ _).trans rfl⟩
  · intro hout
    have hstep : role_idx_step st r target cm et idx m = stOut := by
      unfold_let et stOut
      unfold role_idx_step
      rw [if_neg hout]
      by_cases hR : r ∈ ROLES <;>
        simp only [hR, if_true, Bool.false_eq_true, if_false, bump_edge, edge_count]
    refine ⟨by rw [hstep], (bump_edge_ill _ _).trans rfl⟩

/-- Witness for C4 (the spec's concrete case): in the document
`time.n.08 / person.n.01 Agent -1 Theme +1 / cookie.n.01`, processing
`Agent -1` from the state after the `person.n.01` head connects
`Agent` from synset 1 to synset 0 (one position back), never to a
`Constant`, and leaves the ill-formed flag unchanged. -/
theorem C4_role_index_resolution_witness :
    run_tokens 2 none "person.n.01 Agent -1 Theme +1" c4_state
        ["Agent", "-1", "Theme", "+1"] 1 =
      run_tokens 2 none "person.n.01 Agent -1 Theme +1" c4_state_in ["Theme", "+1"] 2 ∧
    c4_state_in.ill = c4_state.ill := by
  have h := C4_role_index_resolution 2 none "person.n.01 Agent -1 Theme +1" c4_state
    "Agent" "-1" "-1" ["Theme", "+1"] 1 (-1)
    (Or.inl (by decide)) (by decide) (by rfl) (by decide)
  exact h.1 (by decide)

/-- Claim C5: a new-box indicator followed by an index token resolving
to a non-zero offset creates the new box node and one
`BOX_BOX_CONNECT` edge whose source is the box at
`active_index + offset + 1` clamped below at 0, whose target is the
newly created box, and whose display token is the indicator; the
clamped source index is never negative. -/
theorem C5_box_link_clamped (m : Int) (cm : Option String) (line : String)
    (st : ParseState) (ind bi : String) (rest : List String) (c : Nat) (idx : Int)
    (hind : ind ∈ NEW_BOX_INDICATORS)
    (hm : (index_match bi).isSome)
    (hparse : try_parse_idx (replace_angles bi) = .ok idx)
    (hnz : idx ≠ 0) :
    let src : Int :=
      if ((st.box_i : Int) - 1) + idx + 1 ≤ 0 then 0 else ((st.box_i : Int) - 1) + idx + 1
    let st' : ParseState :=
      { st with
          box_i := st.box_i + 1, bbc_i := st.bbc_i + 1,
          nodes := st.nodes ++ [(((.BOX, (st.box_i : Int)) : NodeId),
            (⟨some .BOX, some ("B-" ++ toString st.box_i), none⟩ : NodeData))],
          edges := st.edges ++ [(((.BOX, src) : NodeId), ((.BOX, (st.box_i : Int)) : NodeId),
            (⟨.BOX_BOX_CONNECT, st.bbc_i, ind⟩ : EdgeData))] }
    run_tokens m cm line st (ind :: bi :: rest) c =
      run_tokens m cm line st' rest (c + 1) ∧ 0 ≤ src := by
  intro src st'
  have hns := vocab_indicators_not_synset ind hind
  have hsyn : ¬(c = 0 ∧ (synset_match ind).isSome = true) := by simp [hns]
  obtain ⟨g, hg⟩ := Option.isSome_iff_exists.mp hm
  constructor
  · show run_tokens_f m cm line (rest.length + 1 + 1) st (ind :: bi :: rest) c = _
    unfold run_tokens_f
    rw [if_neg hsyn, if_pos hind]
    simp only []
    unfold box_step
    rw [hg, hparse]
    simp only []
    rw [if_neg hnz]
    exact run_tokens_f_irrel m cm line _ _ _ _ (by omega) _ (by omega)
  · unfold_let src
    split <;> omega

/-- Witness for C5 (the spec's concrete case): `NEGATION -1` with no
prior box (the initial state, whose active box is 0) clamps the edge
source to box index 0 — `0 + (-1) + 1 = 0` — rather than producing a
negative identity, and connects it to the new box `B-1`. -/
theorem C5_box_link_clamped_witness :
    run_tokens 0 none "NEGATION -1" init_state ["NEGATION", "-1"] 0 =
      run_tokens 0 none "NEGATION -1" c5_state [] 1 ∧
    (0 : Int) ≤ (if ((init_state.box_i : Int) - 1) + (-1) + 1 ≤ 0 then 0
      else ((init_state.box_i : Int) - 1) + (-1) + 1) := by
  have h := C5_box_link_clamped 0 none "NEGATION -1" init_state "NEGATION" "-1" [] 0 (-1)
    (by decide) (by decide) (by rfl) (by decide)
  exact h

/-- Claim C6: a role (or operator) target that opens a quoted name
without closing it on the same token consumes the following tokens up
to and including the first one ending in a double quote, joins them
with single spaces, and materializes the join as exactly one
`Constant` node connected from the active synset by one `ROLE` edge
labelled with the role token. -/
theorem C6_quoted_name_joined (m : Int) (cm : Option String) (line : String)
    (st : ParseState) (r t0 tend : String) (a b : List String) (c : Nat)
    (hr : r ∈ ROLES ∨ r ∈ DRS_OPERATORS)
    (hname : name_match t0 = true)
    (ht0 : endsDq t0 = false)
    (ha : ∀ x ∈ a, endsDq x = false)
    (hend : endsDq tend = true) :
    let name := join_space (t0 :: (a ++ [tend]))
    let st' : ParseState :=
      { st with
          con_i := st.con_i + 1, role_i := st.role_i + 1,
          nodes := st.nodes ++ [(((.CONSTANT, (st.con_i : Int)) : NodeId),
            (⟨some .CONSTANT, some name, cm⟩ : NodeData))],
          edges := st.edges ++ [(((.SYNSET, (st.syn_i : Int) - 1) : NodeId),
            ((.CONSTANT, (st.con_i : Int)) : NodeId),
            (⟨.ROLE, st.role_i, r⟩ : EdgeData))] }
    run_tokens m cm line st (r :: t0 :: (a ++ tend :: b)) c =
      run_tokens m cm line st' b (c + 1) := by
  intro name st'
  have hv : r ∉ NEW_BOX_INDICATORS ∧ synset_match r = none := by
    cases hr with
    | inl h => exact vocab_roles r h
    | inr h => exact vocab_drs r h
  have hsyn : ¬(c = 0 ∧ (synset_match r).isSome = true) := by simp [hv.2]
  have hgrp : index_match t0 = none := name_match_not_index t0 hname
  have hscan : name_scan t0 (a ++ tend :: b) = .ok (a.length + 1) :=
    name_scan_spec t0 a tend b ht0 ha hend
  show run_tokens_f m cm line ((a ++ tend :: b).length + 1 + 1) st
      (r :: t0 :: (a ++ tend :: b)) c = _
  unfold run_tokens_f
  rw [if_neg hsyn, if_neg hv.1, if_pos hr]
  simp only [hgrp]
  rw [if_pos hname, hscan]
  simp only []
  have htake : (a ++ tend :: b).take (a.length + 1) = a ++ [tend] := by
    rw [List.take_append_eq_append_take]
    simp
  have hdrop : (a ++ tend :: b).drop (a.length + 1) = b := by
    rw [List.drop_append_eq_append_drop]
    simp
  rw [htake, hdrop]
  exact run_tokens_f_irrel m cm line _ _ _ _
    (by simp [List.length_append]; omega) _ (by omega)

/-- Witness for C6 (the spec's concrete case): after the reading
`person.n.01`, the tokens `Name "New York"` (arriving as `"New` and
`York"`) are rejoined with a single space into the one constant
`"New York"`. -/
theorem C6_quoted_name_joined_witness :
    run_tokens 0 none "person.n.01 Name \"New York\"" c3_state
        ["Name", "\"New", "York\""] 1 =
      run_tokens 0 none "person.n.01 Name \"New York\"" c6_state [] 2 := by
  have h := C6_quoted_name_joined 0 none "person.n.01 Name \"New York\"" c3_state
    "Name" "\"New" "York\"" [] [] 1
    (Or.inl (by decide)) (by decide) (by decide) (by decide) (by decide)
  exact h

/-- Claim C9: a role (or operator) target that opens a quoted name
which no later token on the line closes makes the reconstruction loop
pop from an empty token list: the parse fails with Python's
`IndexError`, not with the parser's own `SBNError` (a different
constructor of `Err`). -/
theorem C9_unterminated_quote_index_error (m : Int) (cm : Option String) (line : String)
    (st : ParseState) (r t0 : String) (rest : List String) (c : Nat)
    (hr : r ∈ ROLES ∨ r ∈ DRS_OPERATORS)
    (hname : name_match t0 = true)
    (ht0 : endsDq t0 = false)
    (hrest : ∀ x ∈ rest, endsDq x = false) :
    run_tokens m cm line st (r :: t0 :: rest) c = .error .indexError := by
  have hv : r ∉ NEW_BOX_INDICATORS ∧ synset_match r = none := by
    cases hr with
    | inl h => exact vocab_roles r h
    | inr h => exact vocab_drs r h
  have hsyn : ¬(c = 0 ∧ (synset_match r).isSome = true) := by simp [hv.2]
  have hgrp : index_match t0 = none := name_match_not_index t0 hname
  have hscan : name_scan t0 rest = .error .indexError := name_scan_fail t0 rest ht0 hrest
  show run_tokens_f m cm line (rest.length + 1 + 1) st (r :: t0 :: rest) c = _
  unfold run_tokens_f
  rw [if_neg hsyn, if_neg hv.1, if_pos hr]
  simp only [hgrp]
  rw [if_pos hname, hscan]

/-- Witness for C9: the tokens `Name "New York` (no closing quote on
the line) raise the index error from the initial state after
`person.n.01`. -/
theorem C9_unterminated_quote_index_error_witness :
    run_tokens 0 none "person.n.01 Name \"New York" c3_state
        ["Name", "\"New", "York"] 1 = .error .indexError :=
  C9_unterminated_quote_index_error 0 none "person.n.01 Name \"New York" c3_state
    "Name" "\"New" ["York"] 1 (Or.inl (by decide)) (by decide) (by decide) (by decide)

/-! ### Reachability: soundness and completeness of `reachB` -/

/-- `Reach` is transitive. -/
theorem reach_trans {ps : List (NodeId × NodeId)} {u v w : NodeId}
    (h1 : Reach ps u v) (h2 : Reach ps v w) : Reach ps u w := by
  induction h1 with
  | refl => exact h2
  | head he _ ih => exact Reach.head he (ih h2)

/-- `Reach` extends along a final edge. -/
theorem reach_tail {ps : List (NodeId × NodeId)} {u v w : NodeId}
    (h1 : Reach ps u v) (h2 : (v, w) ∈ ps) : Reach ps u w :=
  reach_trans h1 (Reach.head h2 (Reach.refl w))

/-- The one-step closure contains its input. -/
theorem subset_stepSet (ps : List (NodeId × NodeId)) (S : Finset NodeId) :
    S ⊆ stepSet ps S :=
  Finset.subset_union_left

/-- Everything in the iterated closure is reachable. -/
theorem reachSet_sound (ps : List (NodeId × NodeId)) (u : NodeId) :
    ∀ (k : Nat) (v : NodeId), v ∈ reachSet ps u k → Reach ps u v := by
  intro k
  induction k with
  | zero =>
    intro v hv
    simp [reachSet] at hv
    rw [hv]
    exact Reach.refl u
  | succ k ih =>
    intro v hv
    simp only [reachSet, stepSet, Finset.mem_union, List.mem_toFinset,
      List.mem_filterMap] at hv
    cases hv with
    | inl h => exact ih v h
    | inr h =>
      obtain ⟨p, hp, hcond⟩ := h
      by_cases hin : p.1 ∈ reachSet ps u k
      · simp only [hin, if_pos] at hcond
        have := ih p.1 hin
        have hpair : (p.1, v) ∈ ps := by
          have : p = (p.1, v) := by
            cases p
            simp at hcond
            simp [hcond]
          rw [← this]
          exact hp
        exact reach_tail this hpair
      · simp [hin] at hcond

/-- The iterated closure grows with the iteration count. -/
theorem reachSet_mono (ps : List (NodeId × NodeId)) (u : NodeId) :
    ∀ {k k2 : Nat}, k ≤ k2 → reachSet ps u k ⊆ reachSet ps u k2 := by
  intro k k2 h
  induction h with
  | refl => exact Finset.Subset.refl _
  | step _ ih => exact ih.trans (subset_stepSet _ _)

/-- Both endpoints of every pair are in the pair universe. -/
theorem mem_univSet_of_mem (ps : List (NodeId × NodeId)) (u : NodeId) :
    ∀ p ∈ ps, p.1 ∈ univSet ps u ∧ p.2 ∈ univSet ps u := by
  unfold univSet
  induction ps with
  | nil => simp
  | cons q rest ih =>
    intro p hp
    simp only [List.foldr_cons, Finset.mem_insert]
    rcases List.mem_cons.mp hp with h | h
    · subst h
      constructor
      · right; left; rfl
      · right; right; left; rfl
    · have := ih p h
      simp only [Finset.mem_insert] at this
      constructor
      · rcases this.1 with h1 | h1
        · left; exact h1
        · right; right; right; exact h1
      · rcases this.2 with h1 | h1
        · left; exact h1
        · right; right; right; exact h1

/-- The iterated closure stays inside the pair universe. -/
theorem reachSet_subset_univ (ps : List (NodeId × NodeId)) (u : NodeId) :
    ∀ k, reachSet ps u k ⊆ univSet ps u := by
  intro k
  induction k with
  | zero =>
    intro v hv
    simp [reachSet] at hv
    rw [hv]
    exact Finset.mem_insert_self u _
  | succ k ih =>
    intro v hv
    simp only [reachSet, stepSet, Finset.mem_union, List.mem_toFinset,
      List.mem_filterMap] at hv
    cases hv with
    | inl h => exact ih h
    | inr h =>
      obtain ⟨p, hp, hcond⟩ := h
      by_cases hin : p.1 ∈ reachSet ps u k
      · simp only [hin, if_pos] at hcond
        have hw := (mem_univSet_of_mem ps u p hp).2
        simp at hcond
        rw [← hcond]
        exact hw
      · simp [hin] at hcond

/-- A step-closed set containing `u` contains everything reachable
from `u`. -/
theorem closed_contains (ps : List (NodeId × NodeId)) (S : Finset NodeId)
    (hclosed : stepSet ps S ⊆ S) {u v : NodeId} (hu : u ∈ S) (hr : Reach ps u v) :
    v ∈ S := by
  induction hr with
  | refl => exact hu
  | head he _ ih =>
    rename_i x y w hyw
    refine ih (hclosed ?_)
    unfold stepSet
    apply Finset.mem_union_right
    simp only [List.mem_toFinset, List.mem_filterMap]
    exact ⟨(x, y), he, by simp [hu]⟩

/-- An unsaturated iteration strictly grows the closure. -/
theorem reachSet_card_lt_of_not_closed (ps : List (NodeId × NodeId)) (u : NodeId)
    (k : Nat) (h : ¬ stepSet ps (reachSet ps u k) ⊆ reachSet ps u k) :
    (reachSet ps u k).card < (reachSet ps u (k + 1)).card := by
  apply Finset.card_lt_card
  show reachSet ps u k ⊂ stepSet ps (reachSet ps u k)
  rw [Finset.ssubset_iff_of_subset (subset_stepSet ps (reachSet ps u k))]
  rw [Finset.not_subset] at h
  obtain ⟨x, hx1, hx2⟩ := h
  exact ⟨x, hx1, hx2⟩

/-- If no iteration up to `n` saturates, the closure at `n` has more
than `n` elements. -/
theorem reachSet_card_ge (ps : List (NodeId × NodeId)) (u : NodeId) :
    ∀ n, (∀ j < n, ¬ stepSet ps (reachSet ps u j) ⊆ reachSet ps u j) →
      n + 1 ≤ (reachSet ps u n).card := by
  intro n
  induction n with
  | zero =>
    intro _
    simp [reachSet]
  | succ n ih =>
    intro h
    have h1 := ih (fun j hj => h j (Nat.lt_succ_of_lt hj))
    have h2 := reachSet_card_lt_of_not_closed ps u n (h n (Nat.lt_succ_self n))
    omega

/-- Some iteration count up to the size of the pair universe
saturates the closure. -/
theorem exists_closed (ps : List (NodeId × NodeId)) (u : NodeId) :
    ∃ k ≤ (univSet ps u).card,
      stepSet ps (reachSet ps u k) ⊆ reachSet ps u k := by
  by_contra hcon
  push_neg at hcon
  have hgrow : ∀ j < (univSet ps u).card + 1,
      ¬ stepSet ps (reachSet ps u j) ⊆ reachSet ps u j := by
    intro j hj
    exact hcon j (by omega)
  have hge := reachSet_card_ge ps u ((univSet ps u).card + 1)
    (fun j hj => hgrow j hj)
  have hle : (reachSet ps u ((univSet ps u).card + 1)).card ≤ (univSet ps u).card :=
    Finset.card_le_card (reachSet_subset_univ ps u _)
  omega

/-- Completeness of the reachability decision procedure. -/
theorem reachB_complete (ps : List (NodeId × NodeId)) (u v : NodeId)
    (h : Reach ps u v) : reachB ps u v = true := by
  obtain ⟨k, hk, hclosed⟩ := exists_closed ps u
  have hu : u ∈ reachSet ps u k := reachSet_mono ps u (Nat.zero_le k)
    (by simp [reachSet])
  have hv : v ∈ reachSet ps u k := closed_contains ps _ hclosed hu h
  unfold reachB
  rw [decide_eq_true_eq]
  exact reachSet_mono ps u hk hv

/-- Soundness of the reachability decision procedure. -/
theorem reachB_sound (ps : List (NodeId × NodeId)) (u v : NodeId)
    (h : reachB ps u v = true) : Reach ps u v := by
  unfold reachB at h
  rw [decide_eq_true_eq] at h
  exact reachSet_sound ps u _ v h

/-- Claim C2: exporting a graph whose edge set contains a directed
cycle to Penman raises `CyclicGraphNotSerializable` before any output
is produced (`to_penman_string` returns only the error, so no partial
tree text is observable). -/
theorem C2_cyclic_graph_not_serializable (g : SBNGraphT) (es strict : Bool)
    (h : has_cycle_prop g) :
    to_penman_string g es strict = .error .cyclicGraph := by
  have hb : has_cycle_b g = true := by
    obtain ⟨e, he, hr⟩ := h
    unfold has_cycle_b
    rw [List.any_eq_true]
    exact ⟨e, he, reachB_complete _ _ _ hr⟩
  unfold to_penman_string to_penman_string_v
  rw [if_pos hb]
  rfl

/-- Witness for C2: the two-synset graph with mutual `Agent`/`Theme`
edges is rejected by the Penman serializer. -/
theorem C2_cyclic_graph_not_serializable_witness :
    to_penman_string c2_graph true true = .error .cyclicGraph :=
  C2_cyclic_graph_not_serializable c2_graph true true
    ⟨(((.SYNSET, 0) : NodeId), ((.SYNSET, 1) : NodeId), (⟨.ROLE, 0, "Agent"⟩ : EdgeData)),
      by decide,
      Reach.head (by decide) (Reach.refl _)⟩

/-- Counterexample to C7: in permissive mode (`strict = False`) the
constant node is emitted with a `(c0 / "x"` variable/concept opener
(and is not even closed), contradicting the claim that constants are
emitted as only their quoted literal in both modes. -/
theorem C7_counterexample :
    to_penman_string c7_graph true false = .ok "(b0 / \"box\"\n\t:Agent (c0 / \"x\")" ∧
    containsSub "(b0 / \"box\"\n\t:Agent (c0 / \"x\")" "(c0 / " = true := by
  constructor
  · rfl
  · rfl

/-- Amended C7: in *strict* mode, a *first* visit to a `Constant` node
with no outgoing edges appends exactly its quoted literal — no
parentheses and no `(variable / concept` binding — and marks the node
visited.  (In permissive mode a constant is opened with
`(var / concept`, and a revisited constant emits its variable name;
the hypotheses record these exclusions.) -/
theorem C7_constant_quoted_strict (S : PGraph) (n : NodeId) (d : PNodeData)
    (vis : List String) (out : String) (tabs fuel : Nat) (tk : String)
    (hl : pnode_data S n = some d)
    (ht : d.type = .CONSTANT)
    (hv : d.var ∉ vis)
    (hc : headChar d.var = some 'c')
    (htok : d.token = some tk)
    (hout : p_out_edges S n = [])
    (hf : 1 ≤ fuel) :
    penman_visit S true fuel n vis out tabs = .ok (out ++ quote tk, vis ++ [d.var]) := by
  match fuel, hf with
  | fuel + 1, _ =>
    unfold penman_visit
    rw [hl]
    simp only []
    rw [if_neg hv, htok]
    simp only []
    have hhead : head_str true d tk (tabs_str tabs) = .ok (quote tk) := by
      unfold head_str
      rw [if_pos rfl, if_neg (by rw [ht]; decide), if_neg (by rw [hc]; simp)]
    rw [hhead]
    simp only []
    rw [hout]
    unfold penman_children_go
    simp only []
    rw [if_pos hc]

/-- Witness for the amended C7: visiting the sole constant of
`c7_pgraph` for the first time in strict mode appends exactly
`"x"` (the quoted literal). -/
theorem C7_constant_quoted_strict_witness :
    penman_visit c7_pgraph true 1 ((.CONSTANT, 0) : NodeId) [] "" 1 =
      .ok ("" ++ quote "x", [] ++ ["c0"]) :=
  C7_constant_quoted_strict c7_pgraph ((.CONSTANT, 0) : NodeId)
    (⟨.CONSTANT, some "x", "c0"⟩ : PNodeData) [] "" 1 1 "x"
    (by rfl) (by rfl) (by decide) (by decide) (by rfl) (by rfl) (by decide)

/-- A node lookup hit is a list entry. -/
theorem pnode_data_mem (S : PGraph) (u : NodeId) (d : PNodeData)
    (h : pnode_data S u = some d) : (u, d) ∈ S.nodes := by
  unfold pnode_data at h
  match hf : S.nodes.find? (fun p => p.1 = u) with
  | none => rw [hf] at h; simp at h
  | some p =>
    rw [hf] at h
    simp at h
    have hmem := List.mem_of_find?_eq_some hf
    have hp := List.find?_some hf
    simp at hp
    have : p = (u, d) := by
      cases p
      simp at hp h ⊢
      exact ⟨hp, h⟩
    rw [← this]
    exact hmem

/-- In a list with no duplicate images, entries with the same image
are the same entry. -/
theorem nodup_map_entry_eq {α β : Type} (f : α → β) :
    ∀ (l : List α), (l.map f).Nodup → ∀ p ∈ l, ∀ q ∈ l, f p = f q → p = q := by
  intro l
  induction l with
  | nil => intro _ p hp; simp at hp
  | cons x rest ih =>
    intro hnd p hp q hq hf
    simp only [List.map_cons, List.nodup_cons] at hnd
    rcases List.mem_cons.mp hp with h1 | h1 <;> rcases List.mem_cons.mp hq with h2 | h2
    · rw [h1, h2]
    · exfalso
      apply hnd.1
      have hfx : f x = f q := by rw [← h1, hf]
      rw [hfx]
      exact List.mem_map_of_mem f h2
    · exfalso
      apply hnd.1
      have hfx : f x = f p := by rw [← h2, hf]
      rw [hfx]
      exact List.mem_map_of_mem f h1
    · exact ih hnd.2 p h1 q h2 hf

/-- An out-edge of `n` contributes the pair `(n, target)`. -/
theorem p_out_edges_pair (S : PGraph) (n : NodeId)
    (e : NodeId × NodeId × EdgeData) (h : e ∈ p_out_edges S n) :
    (n, e.2.1) ∈ p_edge_pairs S := by
  unfold p_out_edges at h
  have hmem := List.mem_of_mem_filter h
  have hsrc := List.of_mem_filter h
  simp at hsrc
  unfold p_edge_pairs
  rw [← hsrc]
  exact List.mem_map_of_mem _ hmem

/-- Every variable the child loop adds to the visited set belongs to a
node reachable from the parent (given the same property for the visit
function at the current fuel). -/
theorem penman_children_go_visited (S : PGraph) (strict : Bool) (fuel : Nat)
    (IH : ∀ n vis out tabs s' vis',
      penman_visit S strict fuel n vis out tabs = .ok (s', vis') →
      ∀ v ∈ vis', v ∈ vis ∨ ∃ u d, Reach (p_edge_pairs S) n u ∧
        pnode_data S u = some d ∧ d.var = v) :
    ∀ (es : List (NodeId × NodeId × EdgeData)) (n : NodeId),
      (∀ e ∈ es, (n, e.2.1) ∈ p_edge_pairs S) →
      ∀ indents out vis tabs s' vis',
        penman_children_go S (fun w vis o t => penman_visit S strict fuel w vis o t)
          es indents out vis tabs = .ok (s', vis') →
        ∀ v ∈ vis', v ∈ vis ∨ ∃ u d, Reach (p_edge_pairs S) n u ∧
          pnode_data S u = some d ∧ d.var = v := by
  intro es
  induction es with
  | nil =>
    intro n _ indents out vis tabs s' vis' h v hv
    unfold penman_children_go at h
    simp at h
    rw [← h.2] at hv
    exact Or.inl hv
  | cons e rest ih =>
    intro n hpairs indents out vis tabs s' vis' h v hv
    unfold penman_children_go at h
    simp only [] at h
    match hvisit : penman_visit S strict fuel e.2.1 vis
        (out ++ "\n" ++ indents ++ ":" ++
          (if e.2.2.token ∈ INVERTIBLE_ROLES then replace_of e.2.2.token else e.2.2.token)
          ++ " ") (tabs + 1) with
    | .error e2 =>
      rw [show e = (e.1, e.2.1, e.2.2) from rfl] at h
      rw [hvisit] at h
      simp at h
    | .ok (out2, vis2) =>
      rw [show e = (e.1, e.2.1, e.2.2) from rfl] at h
      rw [hvisit] at h
      simp only [] at h
      have hrec := ih n (fun e2 he2 => hpairs e2 (List.mem_cons_of_mem _ he2))
        indents out2 vis2 tabs s' vis' h v hv
      rcases hrec with h1 | h1
      · have hfirst := IH e.2.1 vis _ (tabs + 1) out2 vis2 hvisit v h1
        rcases hfirst with h2 | h2
        · exact Or.inl h2
        · obtain ⟨u, d, hr, hl, hv2⟩ := h2
          exact Or.inr ⟨u, d, Reach.head (hpairs e (List.mem_cons_self e rest)) hr, hl, hv2⟩
      · exact Or.inr h1

/-- Every variable the emission adds to the visited set belongs to a
node reachable from the visited node. -/
theorem penman_visit_visited (S : PGraph) (strict : Bool) :
    ∀ (fuel : Nat) (n : NodeId) (vis : List String) (out : String) (tabs : Nat)
      (s' : String) (vis' : List String),
      penman_visit S strict fuel n vis out tabs = .ok (s', vis') →
      ∀ v ∈ vis', v ∈ vis ∨ ∃ u d, Reach (p_edge_pairs S) n u ∧
        pnode_data S u = some d ∧ d.var = v := by
  intro fuel
  induction fuel with
  | zero =>
    intro n vis out tabs s' vis' h
    unfold penman_visit at h
    simp at h
  | succ fuel ih =>
    intro n vis out tabs s' vis' h v hv
    unfold penman_visit at h
    match hl : pnode_data S n with
    | none => rw [hl] at h; simp at h
    | some d =>
      rw [hl] at h
      simp only [] at h
      by_cases hvis : d.var ∈ vis
      · rw [if_pos hvis] at h
        simp at h
        rw [← h.2] at hv
        exact Or.inl hv
      · rw [if_neg hvis] at h
        match htok : d.token with
        | none => rw [htok] at h; simp at h
        | some tok =>
          rw [htok] at h
          simp only [] at h
          match hhd : head_str strict d tok (tabs_str tabs) with
          | .error e => rw [hhd] at h; simp at h
          | .ok hd =>
            rw [hhd] at h
            simp only [] at h
            match hch : penman_children_go S
                (fun w vis o t => penman_visit S strict fuel w vis o t)
                (p_out_edges S n) (tabs_str tabs) (out ++ hd) vis tabs with
            | .error e => rw [hch] at h; simp at h
            | .ok (out2, vis2) =>
              rw [hch] at h
              simp only [] at h
              have hvis2 : ∀ w ∈ vis2, w ∈ vis ∨ ∃ u d2,
                  Reach (p_edge_pairs S) n u ∧ pnode_data S u = some d2 ∧ d2.var = w :=
                fun w hw => penman_children_go_visited S strict fuel ih
                  (p_out_edges S n) n (fun e he => p_out_edges_pair S n e he)
                  (tabs_str tabs) (out ++ hd) vis tabs out2 vis2 hch w hw
              have hvfin : v ∈ vis2 ++ [d.var] := by
                by_cases hc : headChar d.var = some 'c'
                · rw [if_pos hc] at h
                  simp at h
                  rw [← h.2] at hv
                  exact hv
                · rw [if_neg hc] at h
                  simp at h
                  rw [← h.2] at hv
                  exact hv
              rcases List.mem_append.mp hvfin with h1 | h1
              · exact hvis2 v h1
              · simp at h1
                exact Or.inr ⟨n, d, Reach.refl n, hl, h1.symm⟩

/-- Counterexample to C10: `c10_graph` has two in-degree-zero nodes
(the two boxes), yet `to_penman_string` raises the cyclic-graph error
(the two synsets form a cycle) instead of silently emitting partial
output — so it is not true that for *every* graph with more than one
in-degree-zero node no error is raised. -/
theorem C10_counterexample :
    (c10_graph.nodes.filter (fun p => in_degree c10_graph p.1 = 0)).length = 2 ∧
    to_penman_string c10_graph true true = .error .cyclicGraph := by
  constructor
  · rfl
  · have hb : has_cycle_b c10_graph = true := by
      unfold has_cycle_b
      rw [List.any_eq_true]
      exact ⟨(((.SYNSET, 0) : NodeId), ((.SYNSET, 1) : NodeId),
          (⟨.ROLE, 0, "Agent"⟩ : EdgeData)),
        by decide, reachB_complete _ _ _ (Reach.head (by decide) (Reach.refl _))⟩
    unfold to_penman_string to_penman_string_v
    rw [if_pos hb]
    rfl

/-- Amended C10: when the serializer's preliminary checks pass (the
graph is acyclic, strict mode finds it well formed, annotation
succeeds) and the emission starting from the *first* in-degree-zero
node `p0` (in insertion order) succeeds — no uniqueness check on the
root is performed — `to_penman_string` returns that emission's output,
and (when the annotated variables are distinct) the variable of every
node not reachable from `p0` is absent from the visited set, i.e. such
nodes are silently omitted from the output. -/
theorem C10_first_root_emission (g : SBNGraphT) (es strict : Bool)
    (S : PGraph) (p0 : NodeId × PNodeData) (s : String) (vis : List String)
    (hcyc : has_cycle_b g = false)
    (hill : strict = true → g.is_possibly_ill_formed = false)
    (hann : annotate g = .ok S)
    (hroot : (S.nodes.filter (fun p => p_in_degree S p.1 = 0)).head? = some p0)
    (hrun : penman_visit S strict (S.nodes.length + 1) p0.1 [] "" 1 = .ok (s, vis))
    (hvars : (S.nodes.map (fun p => p.2.var)).Nodup) :
    to_penman_string_v g es strict = .ok (s, vis) ∧
    ∀ p ∈ S.nodes, ¬ Reach (p_edge_pairs S) p0.1 p.1 → p.2.var ∉ vis := by
  constructor
  · have h2 : ¬ ((strict && g.is_possibly_ill_formed) = true) := by
      cases strict
      · simp
      · simp [hill rfl]
    unfold to_penman_string_v
    rw [if_neg (by simp [hcyc]), if_neg h2, hann]
    simp only []
    rw [hroot]
    simp only []
    exact hrun
  · intro p hp hnr hmem
    rcases penman_visit_visited S strict (S.nodes.length + 1) p0.1 [] "" 1 s vis
        hrun p.2.var hmem with h0 | ⟨u, d, hr, hud, hdv⟩
    · simp at h0
    · have hm2 := pnode_data_mem S u d hud
      have heq := nodup_map_entry_eq (fun q => q.2.var) S.nodes hvars
        (u, d) hm2 p hp hdv
      apply hnr
      rw [← heq]
      exact hr

/-- Witness for the amended C10: from `c10w_graph` (two boxes, no
edges — two in-degree-zero nodes) the serializer emits only the first
box and the second box's variable `b1` never enters the visited set. -/
theorem C10_first_root_emission_witness :
    to_penman_string_v c10w_graph true true = .ok ("(b0 / \"box\")", ["b0"]) ∧
    "b1" ∉ ["b0"] :=
  have h := C10_first_root_emission c10w_graph true true c10w_pgraph
    (((.BOX, 0) : NodeId), (⟨.BOX, some "box", "b0"⟩ : PNodeData))
    "(b0 / \"box\")" ["b0"]
    (by rfl) (fun _ => rfl) (by rfl) (by rfl) (by rfl) (by decide)
  ⟨h.1, h.2 (((.BOX, 1) : NodeId), (⟨.BOX, some "box", "b1"⟩ : PNodeData))
    (by decide)
    (fun hr => by
      have hb := reachB_complete (p_edge_pairs c10w_pgraph) _ _ hr
      simp [p_edge_pairs, c10w_pgraph, reachB, reachSet, stepSet] at hb)⟩
